import Mathlib

/-!
# openag-ui: the root application state machine

A shallow embedding of `src/scripts/app.js`, `src/scripts/app/nav.js` and
`src/src/recipe/form.js`.

JavaScript values are embedded as the inductive type `Value`; a function that
can raise an exception returns `Except Err`.  The modules the three files
use but which are not among the sources at hand (`common/prelude`,
`common/unknown`, `common/cursor`, `lang/functional`, and the child components
`environments`, `environmental-data-points`, `recipes`, `recipe-handlers`,
`overlay`) are either modelled from the written specification or taken as
parameters (`Children`).
-/

namespace OpenAg

/-! ## JavaScript values -/

/-- A JavaScript value: the primitives and plain objects (own properties in
insertion order).  Numbers are restricted to integers. -/
inductive Value where
  | undefined : Value
  | null : Value
  | bool (b : Bool) : Value
  | num (n : Int) : Value
  | str (s : String) : Value
  | obj (fields : List (String × Value)) : Value

mutual
/-- Structural equality of values, as a boolean. -/
def Value.beq : Value → Value → Bool
  | .undefined, .undefined => true
  | .null, .null => true
  | .bool a, .bool b => a == b
  | .num a, .num b => a == b
  | .str a, .str b => a == b
  | .obj a, .obj b => Value.beqFields a b
  | _, _ => false
/-- Structural equality of property lists, as a boolean. -/
def Value.beqFields : List (String × Value) → List (String × Value) → Bool
  | [], [] => true
  | (k, v) :: r, (k2, v2) :: r2 => k == k2 && Value.beq v v2 && Value.beqFields r r2
  | _, _ => false
end

mutual
theorem Value.beq_eq : ∀ a b : Value, Value.beq a b = true ↔ a = b
  | .undefined, b => by cases b <;> simp [Value.beq]
  | .null, b => by cases b <;> simp [Value.beq]
  | .bool a, b => by cases b <;> simp [Value.beq]
  | .num a, b => by cases b <;> simp [Value.beq]
  | .str a, b => by cases b <;> simp [Value.beq]
  | .obj a, b => by
    cases b <;> simp [Value.beq]
    exact Value.beqFields_eq a _
theorem Value.beqFields_eq :
    ∀ a b : List (String × Value), Value.beqFields a b = true ↔ a = b
  | [], b => by cases b <;> simp [Value.beqFields]
  | (k, v) :: r, b => by
    cases b with
    | nil => simp [Value.beqFields]
    | cons h t =>
      obtain ⟨k2, v2⟩ := h
      simp [Value.beqFields, Value.beq_eq v v2, Value.beqFields_eq r t, and_assoc]
end

instance : DecidableEq Value := fun a b =>
  decidable_of_iff (Value.beq a b = true) (Value.beq_eq a b)

/-- Exceptions.  `typeError` is the JavaScript `TypeError` (reading a property
of `undefined` or `null`, calling something that is not a function);
`outOfFuel` is not a JavaScript exception: it marks that the recursion budget
given to `App.update` was used up. -/
inductive Err where
  | typeError : Err
  | outOfFuel : Err
  deriving DecidableEq

deriving instance DecidableEq for Except

/-- Own-property lookup in a property list; an absent property reads as
`undefined`. -/
def getField (name : String) : List (String × Value) → Value
  | [] => .undefined
  | (k, v) :: rest => if k = name then v else getField name rest

/-- Own-property assignment in a property list: an existing property keeps its
position, a new one is appended. -/
def setField (name : String) (value : Value) :
    List (String × Value) → List (String × Value)
  | [] => [(name, value)]
  | (k, v) :: rest =>
    if k = name then (name, value) :: rest else (k, v) :: setField name value rest

/-- The property read `v.name`: a `TypeError` on `undefined` and `null`, the
own property (or `undefined`) on an object, `undefined` on the other
primitives (none of the names read by the program is a built-in property). -/
def prop (v : Value) (name : String) : Except Err Value :=
  match v with
  | .undefined => .error .typeError
  | .null => .error .typeError
  | .obj fields => .ok (getField name fields)
  | _ => .ok .undefined

/-- The operator `typeof v === 'string'`. -/
def isString : Value → Bool
  | .str _ => true
  | _ => false

/-! ## Effects (library `reflex`)

An effect is represented by what running it delivers: for each command either the
action it yields or the exception raised while producing it. -/

/-- An effect, as the list of the outcomes of its commands. -/
abbrev Effect := List (Except Err Value)

/-- `Effects.none`: the empty effect. -/
def Effects.none : Effect := []

/-- `Effects.batch(effects)`: all commands of all member effects. -/
def Effects.batch (effects : List Effect) : Effect :=
  effects.foldr (fun fx rest => fx ++ rest) []

/-- `fx.map(f)`: `f` is applied to every action the effect yields, when it is
yielded. -/
def Effect.map (f : Value → Except Err Value) (fx : Effect) : Effect :=
  List.map (fun outcome => outcome.bind f) fx

/-- The actions an effect yields. -/
def Effect.yields (fx : Effect) (a : Value) : Prop := Except.ok a ∈ fx

/-! ## `common/prelude`, `common/unknown`, `common/cursor`, `lang/functional` -/

/-- Modelled from the spec: `tagged` of `common/prelude` is absent; §4.1 gives
the wrapped action: `wrap(a).type === namespace` and `wrap(a).source === a`. -/
def tagged (tag : String) (value : Value) : Value :=
  .obj [("type", .str tag), ("source", value)]

/-- Modelled from the spec: `tag` of `common/prelude` is absent; §4.1:
`tag(namespace)` returns the wrapping function of that namespace. -/
def tag (name : String) : Value → Value := tagged name

/-- Modelled from the spec: `merge` of `common/prelude` is absent; §3 and §4.2
describe a persistent update: the result has the changed properties, every
other property is the one of `model`.  A `model` that is not an object has no
own property. -/
def merge (model : Value) (changes : List (String × Value)) : Value :=
  match model with
  | .obj fields => .obj (changes.foldl (fun acc kv => setField kv.1 kv.2 acc) fields)
  | _ => .obj (changes.foldl (fun acc kv => setField kv.1 kv.2 acc) [])

/-- Modelled from the spec: `Unknown.update` of `common/unknown` is absent; §4.4
and §7: the catch-all handler returns the state unchanged with the empty effect
and never throws (the diagnostic record it writes is not part of the result). -/
def Unknown.update {σ : Type} (model : σ) (_action : Value) : Except Err (σ × Effect) :=
  .ok (model, Effects.none)

/-- Modelled from the spec: `cursor` of `common/cursor` is absent; §4.2: get the
child slice, apply the child's update, set the new slice, and map the child's
effect through the tag. -/
def cursor {σ : Type} (get : σ → Value) (set : σ → Value → σ)
    (update : Value → Value → Except Err (Value × Effect))
    (tag : Value → Except Err Value) (model : σ) (action : Value) :
    Except Err (σ × Effect) :=
  match update (get model) action with
  | .error e => .error e
  | .ok (child, fx) => .ok (set model child, Effect.map tag fx)

/-- Modelled from the spec: `batch` of `common/prelude` is absent; §4.3: fold
`update` over the actions in list order, each against the state the previous
one returned, merging every intermediate effect. -/
def batch {σ : Type} (update : σ → Value → Except Err (σ × Effect)) (model : σ)
    (actions : List Value) : Except Err (σ × Effect) :=
  match actions with
  | [] => .ok (model, Effects.none)
  | action :: rest =>
    match update model action with
    | .error e => .error e
    | .ok (next, fx) =>
      match batch update next rest with
      | .error e => .error e
      | .ok (final, fxs) => .ok (final, Effects.batch [fx, fxs])

/-- Modelled from the spec: `compose` of `lang/functional` is absent and the
specification does not describe it; it is taken to be right-to-left
composition, `compose(f, g)(x) = f(g(x))`.  A member that is not a function
(`none`) raises a `TypeError` when the composite is called. -/
def compose (f : Value → Except Err Value) (g : Option (Value → Except Err Value))
    (x : Value) : Except Err Value :=
  match g with
  | none => .error .typeError
  | some g =>
    match g x with
    | .error e => .error e
    | .ok y => f y

/-! ## `src/scripts/app/nav.js` -/

namespace AppNav

/-- The constant `RequestRecipes`. -/
def RequestRecipes : Value := .obj [("type", .str "RequestRecipes")]

/-- `ChangeRecipeTitle = value => ({type: 'ChangeRecipeTitle', value})`. -/
def ChangeRecipeTitle (value : Value) : Value :=
  .obj [("type", .str "ChangeRecipeTitle"), ("value", value)]

/-- The member `ChangeRecipe` that `app.js` (line 78) reads from the module
namespace of `nav.js`.  `nav.js` exports `ChangeRecipeTitle`, `init`, `update`
and `view` and nothing named `ChangeRecipe`, so the read gives `undefined`:
there is no such function. -/
def ChangeRecipe : Option (Value → Except Err Value) := none

/-- The function `init` of `nav.js`. -/
def init : Value × Effect :=
  (.obj [("recipeTitle", .null)], Effects.none)

/-- The function `update` of `nav.js`. -/
def update (model : Value) (action : Value) : Except Err (Value × Effect) :=
  match prop action "type" with
  | .error e => .error e
  | .ok type =>
    if type = .str "ChangeRecipeTitle" then
      match prop action "value" with
      | .error e => .error e
      | .ok value => .ok (merge model [("recipeTitle", value)], Effects.none)
    else Unknown.update model action

/-- The function `readTitle` of `nav.js`; `localize` (module `common/lang`) is a
parameter. -/
def readTitle (localize : String → Value) (model : Value) : Except Err Value :=
  match prop model "recipeTitle" with
  | .error e => .error e
  | .ok title => if isString title then .ok title else .ok (localize "None")

end AppNav

/-! ## `src/src/recipe/form.js` -/

namespace Form

/-- The function `init` of `form.js`. -/
def init : Value × Effect :=
  (.obj [("isOpen", .bool false)], Effects.none)

/-- `Create = operations => ({type: 'Create', operations})`. -/
def Create (operations : Value) : Value :=
  .obj [("type", .str "Create"), ("operations", operations)]

/-- The constant `Open`. -/
def Open : Value := .obj [("type", .str "Open")]

/-- The constant `Close`. -/
def Close : Value := .obj [("type", .str "Close")]

/-- The constant `Cancel`. -/
def Cancel : Value := .obj [("type", .str "Cancel")]

/-- The function `update` of `form.js` (its `Create` branch is commented out in
the source). -/
def update (model : Value) (action : Value) : Except Err (Value × Effect) :=
  match prop action "type" with
  | .error e => .error e
  | .ok type =>
    if type = .str "Open" then
      .ok (merge model [("isOpen", .bool true)], Effects.none)
    else if type = .str "Close" then
      .ok (merge model [("isOpen", .bool false)], Effects.none)
    else Unknown.update model action

end Form

/-! ## `src/scripts/app.js` -/

/-- A child component whose module is absent: its `init` result and its `update`
function. -/
structure Component where
  init : Value × Effect
  update : Value → Value → Except Err (Value × Effect)

/-- A child component that also exports the action constants `Open` and
`Close` (the modules `recipes` and `overlay`). -/
structure Toggle extends Component where
  Open : Value
  Close : Value

/-- The five child modules imported by `app.js` that are absent
(`./environments`, `./environmental-data-points`, `./recipes`,
`./recipe-handlers`, `./overlay`), as parameters of the root state machine. -/
structure Children where
  Environments : Component
  EnvironmentalDataPoints : Component
  Recipes : Toggle
  RecipeHandlers : Component
  Overlay : Toggle

/-- The root state tree: the record built by `init`, one field per child.
`merge(model, {field})` on it is the record update of that field. -/
structure Model where
  environments : Value
  environmentalDataPoint : Value
  recipes : Value
  recipeHandlers : Value
  appNav : Value
  overlay : Value
  deriving DecidableEq

namespace App

/-- `RecipeActivated = value => ({type: 'RecipeActivated', value})`. -/
def RecipeActivated (value : Value) : Value :=
  .obj [("type", .str "RecipeActivated"), ("value", value)]

/-- The tagging function `RecipesAction`. -/
def RecipesAction (action : Value) : Except Err Value :=
  match prop action "type" with
  | .error e => .error e
  | .ok type =>
    if type = .str "Activated" then
      match prop action "value" with
      | .error e => .error e
      | .ok value => .ok (RecipeActivated value)
    else .ok (tagged "Recipes" action)

/-- `EnvironmentsAction = tag('Environments')`. -/
def EnvironmentsAction (action : Value) : Except Err Value :=
  .ok (tag "Environments" action)

/-- `EnvironmentalDataPointsAction = tag('EnvironmentalDataPoints')`. -/
def EnvironmentalDataPointsAction (action : Value) : Except Err Value :=
  .ok (tag "EnvironmentalDataPoints" action)

/-- `RecipeHandlersAction = tag('RecipeHandlers')`. -/
def RecipeHandlersAction (action : Value) : Except Err Value :=
  .ok (tag "RecipeHandlers" action)

/-- The constant `EnterRecipesMode`. -/
def EnterRecipesMode : Value := .obj [("type", .str "EnterRecipesMode")]

/-- The constant `ExitRecipesMode`. -/
def ExitRecipesMode : Value := .obj [("type", .str "ExitRecipesMode")]

/-- The tagging function `OverlayAction`. -/
def OverlayAction (action : Value) : Except Err Value :=
  match prop action "type" with
  | .error e => .error e
  | .ok type =>
    if type = .str "Click" then .ok ExitRecipesMode
    else .ok (tagged "Overlay" action)

/-- The tagging function `AppNavAction`. -/
def AppNavAction (action : Value) : Except Err Value :=
  match prop action "type" with
  | .error e => .error e
  | .ok type =>
    if type = .str "RequestRecipes" then .ok EnterRecipesMode
    else .ok (tagged "AppNav" action)

/-- `OpenRecipes = RecipesAction(Recipes.Open)`. -/
def OpenRecipes (c : Children) : Except Err Value := RecipesAction c.Recipes.Open

/-- `CloseRecipes = RecipesAction(Recipes.Close)`. -/
def CloseRecipes (c : Children) : Except Err Value := RecipesAction c.Recipes.Close

/-- `OpenOverlay = OverlayAction(Overlay.Open)`. -/
def OpenOverlay (c : Children) : Except Err Value := OverlayAction c.Overlay.Open

/-- `CloseOverlay = OverlayAction(Overlay.Close)`. -/
def CloseOverlay (c : Children) : Except Err Value := OverlayAction c.Overlay.Close

/-- `CreateRecipe = recipe => ({type: 'CreateRecipe', recipe})`. -/
def CreateRecipe (recipe : Value) : Value :=
  .obj [("type", .str "CreateRecipe"), ("recipe", recipe)]

/-- The constant `EnterAddRecipe`. -/
def EnterAddRecipe : Value := .obj [("type", .str "EnterAddRecipe")]

/-- The constant `ExitAddRecipe`. -/
def ExitAddRecipe : Value := .obj [("type", .str "ExitAddRecipe")]

/-- The constant `CancelAddRecipe`. -/
def CancelAddRecipe : Value := .obj [("type", .str "CancelAddRecipe")]

/-- `RequestMode = value => ({type: 'RequestMode', value})`. -/
def RequestMode (value : Value) : Value :=
  .obj [("type", .str "RequestMode"), ("value", value)]

/-- `ChangeAppNavRecipe = compose(AppNavAction, AppNav.ChangeRecipe)`. -/
def ChangeAppNavRecipe (recipe : Value) : Except Err Value :=
  compose AppNavAction AppNav.ChangeRecipe recipe

/-- The function `init` of `app.js`. -/
def init (c : Children) : Model × Effect :=
  ({ environments := c.Environments.init.1,
     environmentalDataPoint := c.EnvironmentalDataPoints.init.1,
     recipes := c.Recipes.init.1,
     recipeHandlers := c.RecipeHandlers.init.1,
     appNav := AppNav.init.1,
     overlay := c.Overlay.init.1 },
   Effects.batch [
     Effect.map EnvironmentsAction c.Environments.init.2,
     Effect.map EnvironmentalDataPointsAction c.EnvironmentalDataPoints.init.2,
     Effect.map RecipesAction c.Recipes.init.2,
     Effect.map RecipeHandlersAction c.RecipeHandlers.init.2,
     Effect.map AppNavAction AppNav.init.2,
     Effect.map OverlayAction c.Overlay.init.2 ])

/-- The cursor `updateEnvironments`. -/
def updateEnvironments (c : Children) : Model → Value → Except Err (Model × Effect) :=
  cursor (fun model => model.environments)
    (fun model environments => { model with environments := environments })
    c.Environments.update EnvironmentsAction

/-- The cursor `updateAppNav`. -/
def updateAppNav : Model → Value → Except Err (Model × Effect) :=
  cursor (fun model => model.appNav)
    (fun model appNav => { model with appNav := appNav })
    AppNav.update AppNavAction

/-- The cursor `updateRecipes`. -/
def updateRecipes (c : Children) : Model → Value → Except Err (Model × Effect) :=
  cursor (fun model => model.recipes)
    (fun model recipes => { model with recipes := recipes })
    c.Recipes.update RecipesAction

/-- The cursor `updateRecipeHandlers`. -/
def updateRecipeHandlers (c : Children) : Model → Value → Except Err (Model × Effect) :=
  cursor (fun model => model.recipeHandlers)
    (fun model recipeHandlers => { model with recipeHandlers := recipeHandlers })
    c.RecipeHandlers.update RecipeHandlersAction

/-- The cursor `updateEnvironmentalDataPoints`. -/
def updateEnvironmentalDataPoints (c : Children) :
    Model → Value → Except Err (Model × Effect) :=
  cursor (fun model => model.environmentalDataPoint)
    (fun model environmentalDataPoint =>
      { model with environmentalDataPoint := environmentalDataPoint })
    c.EnvironmentalDataPoints.update EnvironmentalDataPointsAction

/-- The cursor `updateOverlay`. -/
def updateOverlay (c : Children) : Model → Value → Except Err (Model × Effect) :=
  cursor (fun model => model.overlay)
    (fun model overlay => { model with overlay := overlay })
    c.Overlay.update OverlayAction

/-- The function `enterRecipesMode`; `update` is the root update it folds. -/
def enterRecipesMode (update : Model → Value → Except Err (Model × Effect))
    (c : Children) (model : Model) : Except Err (Model × Effect) :=
  match OpenRecipes c, OpenOverlay c with
  | .ok openRecipes, .ok openOverlay => batch update model [openRecipes, openOverlay]
  | .error e, _ => .error e
  | _, .error e => .error e

/-- The function `exitRecipesMode`; `update` is the root update it folds. -/
def exitRecipesMode (update : Model → Value → Except Err (Model × Effect))
    (c : Children) (model : Model) : Except Err (Model × Effect) :=
  match CloseRecipes c, CloseOverlay c with
  | .ok closeRecipes, .ok closeOverlay => batch update model [closeRecipes, closeOverlay]
  | .error e, _ => .error e
  | _, .error e => .error e

/-- The function `recipeActivated`; `update` is the root update it folds.  The
array of actions is built before `batch` is called, so an exception raised by
`ChangeAppNavRecipe(recipe)` is the result. -/
def recipeActivated (update : Model → Value → Except Err (Model × Effect))
    (c : Children) (model : Model) (recipe : Value) : Except Err (Model × Effect) :=
  match ChangeAppNavRecipe recipe with
  | .error e => .error e
  | .ok changeTitle =>
    match CloseRecipes c, CloseOverlay c with
    | .ok closeRecipes, .ok closeOverlay =>
      batch update model [changeTitle, closeRecipes, closeOverlay]
    | .error e, _ => .error e
    | _, .error e => .error e

/-- The function `update` of `app.js`.  It calls itself through `batch`; the
first argument bounds the depth of those calls (`outOfFuel` when it is used
up).  The property reads `action.type`, `action.source` and `action.value` raise
together (exactly when `action` is `undefined` or `null`), so they are made up
front. -/
def update : Nat → Children → Model → Value → Except Err (Model × Effect)
  | 0, _, _, _ => .error .outOfFuel
  | fuel + 1, c, model, action =>
    match prop action "type", prop action "source", prop action "value" with
    | .ok type, .ok source, .ok value =>
      if type = .str "Environments" then updateEnvironments c model source
      else if type = .str "EnvironmentalDataPoints" then
        updateEnvironmentalDataPoints c model source
      else if type = .str "Recipes" then updateRecipes c model source
      else if type = .str "RecipeHandlers" then updateRecipeHandlers c model source
      else if type = .str "AppNav" then updateAppNav model source
      else if type = .str "Overlay" then updateOverlay c model source
      else if type = .str "RecipeActivated" then
        recipeActivated (update fuel c) c model value
      else if type = .str "EnterRecipesMode" then enterRecipesMode (update fuel c) c model
      else if type = .str "ExitRecipesMode" then exitRecipesMode (update fuel c) c model
      else Unknown.update model action
    | .error e, _, _ => .error e
    | _, .error e, _ => .error e
    | _, _, .error e => .error e

end App

/-! ## Namespaces and the children used in examples -/

/-- The six namespaces routed by the root `update`. -/
inductive Namespace where
  | Environments | EnvironmentalDataPoints | Recipes | RecipeHandlers | AppNav | Overlay
  deriving DecidableEq

/-- The `type` string of a namespace. -/
def Namespace.name : Namespace → String
  | .Environments => "Environments"
  | .EnvironmentalDataPoints => "EnvironmentalDataPoints"
  | .Recipes => "Recipes"
  | .RecipeHandlers => "RecipeHandlers"
  | .AppNav => "AppNav"
  | .Overlay => "Overlay"

/-- The state slice of a namespace (the `get` of its cursor). -/
def Namespace.slice : Namespace → Model → Value
  | .Environments, model => model.environments
  | .EnvironmentalDataPoints, model => model.environmentalDataPoint
  | .Recipes, model => model.recipes
  | .RecipeHandlers, model => model.recipeHandlers
  | .AppNav, model => model.appNav
  | .Overlay, model => model.overlay

/-- The child `update` of a namespace (the `update` of its cursor). -/
def Namespace.childUpdate (c : Children) :
    Namespace → Value → Value → Except Err (Value × Effect)
  | .Environments => c.Environments.update
  | .EnvironmentalDataPoints => c.EnvironmentalDataPoints.update
  | .Recipes => c.Recipes.update
  | .RecipeHandlers => c.RecipeHandlers.update
  | .AppNav => AppNav.update
  | .Overlay => c.Overlay.update

/-- The tagging function of a namespace (the `tag` of its cursor). -/
def Namespace.tagger : Namespace → Value → Except Err Value
  | .Environments => App.EnvironmentsAction
  | .EnvironmentalDataPoints => App.EnvironmentalDataPointsAction
  | .Recipes => App.RecipesAction
  | .RecipeHandlers => App.RecipeHandlersAction
  | .AppNav => App.AppNavAction
  | .Overlay => App.OverlayAction

/-- The open/close leaf of `form.js` as a child component with `Open` and
`Close` constants. -/
def formToggle : Toggle :=
  { init := Form.init, update := Form.update, Open := Form.Open, Close := Form.Close }

/-- Children for concrete evaluation: every absent child is the open/close leaf
of `form.js`. -/
def formChildren : Children :=
  { Environments := formToggle.toComponent,
    EnvironmentalDataPoints := formToggle.toComponent,
    Recipes := formToggle,
    RecipeHandlers := formToggle.toComponent,
    Overlay := formToggle }

/-- The `set` of the cursor of a namespace. -/
def Namespace.set : Namespace → Model → Value → Model
  | .Environments, model, v => { model with environments := v }
  | .EnvironmentalDataPoints, model, v => { model with environmentalDataPoint := v }
  | .Recipes, model, v => { model with recipes := v }
  | .RecipeHandlers, model, v => { model with recipeHandlers := v }
  | .AppNav, model, v => { model with appNav := v }
  | .Overlay, model, v => { model with overlay := v }

/-- The child action type that the tagging function of a namespace translates
into a root action instead of wrapping it, if it has one. -/
def Namespace.escape : Namespace → Option String
  | .Recipes => some "Activated"
  | .AppNav => some "RequestRecipes"
  | .Overlay => some "Click"
  | _ => none

/-- The action `a` has a readable `type` and it is not the string `escape`. -/
def typeIsNot (a : Value) (escape : String) : Bool :=
  match prop a "type" with
  | .ok t => decide (t ≠ .str escape)
  | .error _ => false

/-- What is assumed of the absent constants `Recipes.Open`, `Recipes.Close`,
`Overlay.Open` and `Overlay.Close`: each is an action that its tagging function
wraps (none has the escape type of its namespace). -/
def Children.wellFormed (c : Children) : Bool :=
  typeIsNot c.Recipes.Open "Activated" && typeIsNot c.Recipes.Close "Activated"
    && typeIsNot c.Overlay.Open "Click" && typeIsNot c.Overlay.Close "Click"

/-- The contract of §6 for a child `update`: it returns on every action whose
`type` can be read. -/
def ReturnsOnActions (update : Value → Value → Except Err (Value × Effect)) : Prop :=
  ∀ model action t, prop action "type" = .ok t → ∃ r, update model action = .ok r

/-- JavaScript truthiness, as tested by `model.isOpen ? ... : ...` in the view
of `form.js`. -/
def truthy : Value → Bool
  | .undefined => false
  | .null => false
  | .bool b => b
  | .num n => decide (n ≠ 0)
  | .str s => decide (s ≠ "")
  | .obj _ => true

/-- The test `model.isOpen` of an open/close leaf. -/
def isOpen (model : Value) : Bool :=
  match prop model "isOpen" with
  | .ok v => truthy v
  | .error _ => false

/-- The state component of a result. -/
def stateOf {σ : Type} (r : Except Err (σ × Effect)) : Except Err σ :=
  r.map Prod.fst

/-- The recipe `{id: 'r1', title: 'Soup'}`. -/
def soup : Value := .obj [("id", .str "r1"), ("title", .str "Soup")]

/-- The child action `{type: 'Click'}`. -/
def click : Value := .obj [("type", .str "Click")]

/-- The root state of `formChildren` with the recipes list and the overlay
open. -/
def openState : Model :=
  { (App.init formChildren).1 with
    recipes := .obj [("isOpen", .bool true)],
    overlay := .obj [("isOpen", .bool true)] }

/-- Children whose `recipes` component starts with an effect that yields the
child action `{type: 'Activated'}`. -/
def activatingChildren : Children :=
  { formChildren with
    Recipes := { formToggle with
      init := (Form.init.1, [.ok (.obj [("type", .str "Activated")])]) } }

/-- The action types that root `update` dispatches on: the six namespaces and
the three cross-cutting root actions. -/
def handledTypes : List String :=
  ["Environments", "EnvironmentalDataPoints", "Recipes", "RecipeHandlers", "AppNav",
    "Overlay", "RecipeActivated", "EnterRecipesMode", "ExitRecipesMode"]

/-! ## Views: `html` and `forward` (library `reflex`), `view` of `nav.js` and of `app.js` -/

/-- A virtual DOM node as built by `html.<tag>(attributes, children)`, as far as
dispatch is concerned: the tag, the `className`, the `onClick` handler if any
(a function of no argument whose result is what the address returns), and the
children; a string child is a `text`. -/
inductive Html (ρ : Type) where
  | text (content : Value) : Html ρ
  | node (name : String) (className : Value) (onClick : Option (Unit → ρ))
      (children : List (Html ρ)) : Html ρ

mutual
/-- What the click handlers of a tree send, in document order: every handler is
run once. -/
def Html.clicks {ρ : Type} : Html ρ → List ρ
  | .text _ => []
  | .node _ _ onClick children =>
    (match onClick with
      | none => []
      | some handler => [handler ()]) ++ Html.clicksAll children
/-- What the click handlers of a list of trees send. -/
def Html.clicksAll {ρ : Type} : List (Html ρ) → List ρ
  | [] => []
  | child :: rest => Html.clicks child ++ Html.clicksAll rest
end

/-- `forward(address, tag)` of library `reflex`: the narrowed address, which
sends `tag(action)` to `address`. -/
def forward {ρ : Type} (address : Value → ρ) (tag : Value → Except Err Value)
    (action : Value) : Except Err ρ :=
  match tag action with
  | .error e => .error e
  | .ok wrapped => .ok (address wrapped)

/-- The function `view` of `nav.js`; `localize` (module `common/lang`) and
`classed` (module `common/attr`) are parameters. -/
def AppNav.view {ρ : Type} (localize : String → Value) (classed : Value → Value)
    (model : Value) (address : Value → ρ) : Except Err (Html ρ) :=
  match AppNav.readTitle localize model with
  | .error e => .error e
  | .ok title =>
    .ok (.node "div" (.str "nav-main") none [
      .node "nav" (.str "nav-toolbar") none [
        .node "a" (.str "nav-current-recipe") (some fun _ => address AppNav.RequestRecipes) [
          .node "span" (.str "nav-current-recipe-label") none [.text (.str "Current Recipe")],
          .node "span" (.str "nav-current-recipe-title") none [.text title]],
        .node "a"
          (classed (.obj [("ir", .bool true), ("nav-chart-icon", .bool true),
            ("nav-chart-icon-active", .bool true)]))
          none [.text (localize "Chart")]]])

/-- The `view` functions of the absent child modules that root `view` renders
(`./environmental-data-points`, `./overlay`, `./recipes`), as parameters: each
takes its slice and its address. -/
structure ChildViews (ρ : Type) where
  EnvironmentalDataPoints : Value → (Value → Except Err ρ) → Except Err (Html (Except Err ρ))
  Overlay : Value → (Value → Except Err ρ) → Except Err (Html (Except Err ρ))
  Recipes : Value → (Value → Except Err ρ) → Except Err (Html (Except Err ρ))

/-- The function `view` of `app.js`. -/
def App.view {ρ : Type} (localize : String → Value) (classed : Value → Value)
    (views : ChildViews ρ) (model : Model) (address : Value → ρ) :
    Except Err (Html (Except Err ρ)) :=
  match AppNav.view localize classed model.appNav (forward address App.AppNavAction) with
  | .error e => .error e
  | .ok appNav =>
    match views.EnvironmentalDataPoints model.environmentalDataPoint
        (forward address App.EnvironmentalDataPointsAction) with
    | .error e => .error e
    | .ok environmentalDataPoints =>
      match views.Overlay model.overlay (forward address App.OverlayAction) with
      | .error e => .error e
      | .ok overlay =>
        match views.Recipes model.recipes (forward address App.RecipesAction) with
        | .error e => .error e
        | .ok recipes =>
          .ok (.node "div" (.str "app-main") none
            [appNav, environmentalDataPoints, overlay, recipes])

/-- Child views that render an empty text node, for concrete evaluation. -/
def emptyViews : ChildViews Value :=
  { EnvironmentalDataPoints := fun _ _ => .ok (.text (.str "")),
    Overlay := fun _ _ => .ok (.text (.str "")),
    Recipes := fun _ _ => .ok (.text (.str "")) }

/-- The form state `{isOpen: true}`. -/
def openForm : Value := .obj [("isOpen", .bool true)]

mutual
/-- The tree with every click handler followed by `f`: what a view renders when
the address it sends to is composed with `f`. -/
def Html.map {α β : Type} (f : α → β) : Html α → Html β
  | .text content => .text content
  | .node name className onClick children =>
    .node name className
      (match onClick with
        | none => none
        | some handler => some fun u => f (handler u))
      (Html.mapAll f children)
/-- `Html.map` on a list of trees. -/
def Html.mapAll {α β : Type} (f : α → β) : List (Html α) → List (Html β)
  | [] => []
  | child :: rest => Html.map f child :: Html.mapAll f rest
end

/-- The absent child views, described by what they send: for each rendered
child, the tree it builds from its slice, each click handler giving the child
action it sends to its address. -/
structure ChildSends where
  EnvironmentalDataPoints : Value → Except Err (Html Value)
  Overlay : Value → Except Err (Html Value)
  Recipes : Value → Except Err (Html Value)

/-- The view of a child that uses its address only to send actions from its
handlers: the tree of the sent actions, every handler followed by the
address. -/
def viewOfSends {ρ : Type} (sends : Value → Except Err (Html Value)) (model : Value)
    (address : Value → Except Err ρ) : Except Err (Html (Except Err ρ)) :=
  match sends model with
  | .error e => .error e
  | .ok tree => .ok (Html.map address tree)

/-- The child views of children that use their address only to send actions. -/
def ChildSends.views {ρ : Type} (sends : ChildSends) : ChildViews ρ :=
  { EnvironmentalDataPoints := viewOfSends sends.EnvironmentalDataPoints,
    Overlay := viewOfSends sends.Overlay,
    Recipes := viewOfSends sends.Recipes }

/-- A button that sends `action` when clicked. -/
def button (action : Value) : Html Value :=
  .node "button" (.str "") (some fun _ => action) []

/-- Child views for concrete evaluation: the data points view sends `{type:
'Open'}`, the overlay view sends `{type: 'Close'}` and `{type: 'Click'}`, the
recipes view sends `{type: 'Activated', value: soup}`. -/
def sampleSends : ChildSends :=
  { EnvironmentalDataPoints := fun _ => .ok (button Form.Open),
    Overlay := fun _ => .ok (.node "div" (.str "") none [button Form.Close, button click]),
    Recipes := fun _ =>
      .ok (button (.obj [("type", .str "Activated"), ("value", soup)])) }

/-! ## Lemmas on values and the combinators -/

theorem getField_setField_self (name : String) (v : Value) (fields : List (String × Value)) :
    getField name (setField name v fields) = v := by
  induction fields with
  | nil => simp [setField, getField]
  | cons kv rest ih =>
    obtain ⟨k, w⟩ := kv
    by_cases h : k = name
    · simp [setField, getField, h]
    · simp [setField, getField, h, ih]

theorem getField_setField_ne (name other : String) (h : other ≠ name) (v : Value)
    (fields : List (String × Value)) :
    getField other (setField name v fields) = getField other fields := by
  induction fields with
  | nil => simp [setField, getField, h.symm]
  | cons kv rest ih =>
    obtain ⟨k, w⟩ := kv
    by_cases hk : k = name
    · subst hk
      simp [setField, getField, h.symm]
    · by_cases ho : k = other
      · subst ho
        simp [setField, getField, hk]
      · simp [setField, getField, hk, ho, ih]

theorem prop_merge_self (model : Value) (name : String) (v : Value) :
    prop (merge model [(name, v)]) name = .ok v := by
  cases model <;> simp [merge, prop, getField_setField_self]

theorem prop_tagged_type (name : String) (a : Value) :
    prop (tagged name a) "type" = .ok (.str name) := by
  simp [tagged, prop, getField]

theorem prop_tagged_source (name : String) (a : Value) :
    prop (tagged name a) "source" = .ok a := by
  simp [tagged, prop, getField]

theorem prop_tagged_value (name : String) (a : Value) :
    prop (tagged name a) "value" = .ok .undefined := by
  simp [tagged, prop, getField]

/-- A value whose `type` can be read has every property readable. -/
theorem prop_ok_of_ok {a : Value} {k : String} {t : Value} (h : prop a k = .ok t)
    (k2 : String) : ∃ v, prop a k2 = .ok v := by
  cases a <;> simp_all [prop]

theorem typeIsNot_spec {a : Value} {e : String} (h : typeIsNot a e = true) :
    ∃ t, prop a "type" = .ok t ∧ t ≠ .str e := by
  unfold typeIsNot at h
  cases hp : prop a "type" with
  | error err => simp [hp] at h
  | ok t =>
    refine ⟨t, rfl, ?_⟩
    simpa [hp] using h

theorem Namespace.slice_set_ne (N1 N2 : Namespace) (h : N1 ≠ N2) (s : Model) (v : Value) :
    N2.slice (N1.set s v) = N2.slice s := by
  cases N1 <;> cases N2 <;> first | rfl | exact absurd rfl h

theorem Namespace.slice_set_self (N : Namespace) (s : Model) (v : Value) :
    N.slice (N.set s v) = v := by
  cases N <;> rfl

open App

/-- Root `update` on a routed action is the cursor of its namespace. -/
theorem update_tagged (n : Nat) (c : Children) (s : Model) (N : Namespace) (a : Value) :
    update (n + 1) c s (tagged N.name a)
      = cursor N.slice N.set (N.childUpdate c) N.tagger s a := by
  cases N <;>
    simp [update, prop_tagged_type, prop_tagged_source, prop_tagged_value, Namespace.name,
      updateEnvironments, updateEnvironmentalDataPoints, updateRecipes, updateRecipeHandlers,
      updateAppNav, updateOverlay] <;> rfl

/-- The cursor returns exactly when the child update does, with the slice
written back. -/
theorem cursor_ok {σ : Type} (get : σ → Value) (set : σ → Value → σ)
    (upd : Value → Value → Except Err (Value × Effect)) (tg : Value → Except Err Value)
    (s : σ) (a : Value) (m : Value) (fx : Effect) (h : upd (get s) a = .ok (m, fx)) :
    cursor get set upd tg s a = .ok (set s m, Effect.map tg fx) := by
  simp [cursor, h]

theorem cursor_error {σ : Type} (get : σ → Value) (set : σ → Value → σ)
    (upd : Value → Value → Except Err (Value × Effect)) (tg : Value → Except Err Value)
    (s : σ) (a : Value) (e : Err) (h : upd (get s) a = .error e) :
    cursor get set upd tg s a = .error e := by
  simp [cursor, h]

theorem batch_pair_state {σ : Type} (upd : σ → Value → Except Err (σ × Effect)) (s : σ)
    (a1 a2 : Value) :
    stateOf (batch upd s [a1, a2]) = stateOf ((upd s a1).bind fun r => upd r.1 a2) := by
  cases h1 : upd s a1 with
  | error e => simp [batch, h1, stateOf, Except.bind, Except.map]
  | ok r =>
    obtain ⟨s1, fx1⟩ := r
    cases h2 : upd s1 a2 with
    | error e => simp [batch, h1, h2, stateOf, Except.bind, Except.map]
    | ok r2 =>
      obtain ⟨s2, fx2⟩ := r2
      simp [batch, h1, h2, stateOf, Except.bind, Except.map]

theorem RecipesAction_wrap {a : Value} (h : typeIsNot a "Activated" = true) :
    RecipesAction a = .ok (tagged "Recipes" a) := by
  obtain ⟨t, ht, hne⟩ := typeIsNot_spec h
  simp [RecipesAction, ht, hne]

theorem OverlayAction_wrap {a : Value} (h : typeIsNot a "Click" = true) :
    OverlayAction a = .ok (tagged "Overlay" a) := by
  obtain ⟨t, ht, hne⟩ := typeIsNot_spec h
  simp [OverlayAction, ht, hne]

theorem AppNavAction_wrap {a : Value} (h : typeIsNot a "RequestRecipes" = true) :
    AppNavAction a = .ok (tagged "AppNav" a) := by
  obtain ⟨t, ht, hne⟩ := typeIsNot_spec h
  simp [AppNavAction, ht, hne]

/-- Under `wellFormed` the four mode constants are wrapped child actions. -/
theorem wellFormed_constants {c : Children} (h : c.wellFormed = true) :
    OpenRecipes c = .ok (tagged "Recipes" c.Recipes.Open) ∧
    CloseRecipes c = .ok (tagged "Recipes" c.Recipes.Close) ∧
    OpenOverlay c = .ok (tagged "Overlay" c.Overlay.Open) ∧
    CloseOverlay c = .ok (tagged "Overlay" c.Overlay.Close) := by
  simp only [Children.wellFormed, Bool.and_eq_true] at h
  obtain ⟨⟨⟨h1, h2⟩, h3⟩, h4⟩ := h
  exact ⟨RecipesAction_wrap h1, RecipesAction_wrap h2, OverlayAction_wrap h3,
    OverlayAction_wrap h4⟩

theorem update_enter (n : Nat) (c : Children) (s : Model) :
    update (n + 1) c s EnterRecipesMode = enterRecipesMode (update n c) c s := by
  simp [update, EnterRecipesMode, prop, getField]

theorem update_exit (n : Nat) (c : Children) (s : Model) :
    update (n + 1) c s ExitRecipesMode = exitRecipesMode (update n c) c s := by
  simp [update, ExitRecipesMode, prop, getField]

theorem update_activated (n : Nat) (c : Children) (s : Model) (v : Value) :
    update (n + 1) c s (RecipeActivated v) = recipeActivated (update n c) c s v := by
  simp [update, RecipeActivated, prop, getField]

/-- A routed action needs no more than one unit of fuel. -/
theorem update_tagged_fuel (n m : Nat) (c : Children) (s : Model) (N : Namespace) (a : Value) :
    update (n + 1) c s (tagged N.name a) = update (m + 1) c s (tagged N.name a) := by
  rw [update_tagged, update_tagged]

/-- The batch of a wrapped recipes action and a wrapped overlay action, when
both child updates return: both slices are replaced, nothing else is. -/
theorem batch_recipes_overlay (n : Nat) (c : Children) (s : Model) (ar ao : Value)
    (mr mo : Value) (fxr fxo : Effect)
    (hr : c.Recipes.update s.recipes ar = .ok (mr, fxr))
    (ho : c.Overlay.update s.overlay ao = .ok (mo, fxo)) :
    batch (update (n + 1) c) s [tagged "Recipes" ar, tagged "Overlay" ao]
      = .ok ({ s with recipes := mr, overlay := mo },
          Effects.batch [Effect.map RecipesAction fxr,
            Effects.batch [Effect.map OverlayAction fxo, Effects.none]]) := by
  have q1 := update_tagged n c s Namespace.Recipes ar
  have q2 := update_tagged n c { s with recipes := mr } Namespace.Overlay ao
  simp only [Namespace.name] at q1 q2
  have r1 := cursor_ok Namespace.Recipes.slice Namespace.Recipes.set
    (Namespace.Recipes.childUpdate c) Namespace.Recipes.tagger s ar mr fxr hr
  have r2 := cursor_ok Namespace.Overlay.slice Namespace.Overlay.set
    (Namespace.Overlay.childUpdate c) Namespace.Overlay.tagger { s with recipes := mr }
    ao mo fxo ho
  rw [r1] at q1
  rw [r2] at q2
  simp only [batch, q1, Namespace.set, q2]
  rfl

theorem enterRecipesMode_ok (n : Nat) (c : Children) (s : Model) (hw : c.wellFormed = true)
    (mr mo : Value) (fxr fxo : Effect)
    (hr : c.Recipes.update s.recipes c.Recipes.Open = .ok (mr, fxr))
    (ho : c.Overlay.update s.overlay c.Overlay.Open = .ok (mo, fxo)) :
    enterRecipesMode (update (n + 1) c) c s
      = .ok ({ s with recipes := mr, overlay := mo },
          Effects.batch [Effect.map RecipesAction fxr,
            Effects.batch [Effect.map OverlayAction fxo, Effects.none]]) := by
  obtain ⟨e1, _, e2, _⟩ := wellFormed_constants hw
  rw [enterRecipesMode, e1, e2]
  exact batch_recipes_overlay n c s _ _ mr mo fxr fxo hr ho

theorem update_enter_ok (n : Nat) (c : Children) (s : Model) (hw : c.wellFormed = true)
    (mr mo : Value) (fxr fxo : Effect)
    (hr : c.Recipes.update s.recipes c.Recipes.Open = .ok (mr, fxr))
    (ho : c.Overlay.update s.overlay c.Overlay.Open = .ok (mo, fxo)) :
    update (n + 2) c s EnterRecipesMode
      = .ok ({ s with recipes := mr, overlay := mo },
          Effects.batch [Effect.map RecipesAction fxr,
            Effects.batch [Effect.map OverlayAction fxo, Effects.none]]) := by
  rw [update_enter]
  exact enterRecipesMode_ok n c s hw mr mo fxr fxo hr ho

theorem exitRecipesMode_ok (n : Nat) (c : Children) (s : Model) (hw : c.wellFormed = true)
    (mr mo : Value) (fxr fxo : Effect)
    (hr : c.Recipes.update s.recipes c.Recipes.Close = .ok (mr, fxr))
    (ho : c.Overlay.update s.overlay c.Overlay.Close = .ok (mo, fxo)) :
    exitRecipesMode (update (n + 1) c) c s
      = .ok ({ s with recipes := mr, overlay := mo },
          Effects.batch [Effect.map RecipesAction fxr,
            Effects.batch [Effect.map OverlayAction fxo, Effects.none]]) := by
  obtain ⟨_, e1, _, e2⟩ := wellFormed_constants hw
  rw [exitRecipesMode, e1, e2]
  exact batch_recipes_overlay n c s _ _ mr mo fxr fxo hr ho

theorem update_exit_ok (n : Nat) (c : Children) (s : Model) (hw : c.wellFormed = true)
    (mr mo : Value) (fxr fxo : Effect)
    (hr : c.Recipes.update s.recipes c.Recipes.Close = .ok (mr, fxr))
    (ho : c.Overlay.update s.overlay c.Overlay.Close = .ok (mo, fxo)) :
    update (n + 2) c s ExitRecipesMode
      = .ok ({ s with recipes := mr, overlay := mo },
          Effects.batch [Effect.map RecipesAction fxr,
            Effects.batch [Effect.map OverlayAction fxo, Effects.none]]) := by
  rw [update_exit]
  exact exitRecipesMode_ok n c s hw mr mo fxr fxo hr ho

/-- Root `update` on any action of type `'EnterRecipesMode'`. -/
theorem update_of_type_enter (n : Nat) (c : Children) (s : Model) (action : Value)
    (ht : prop action "type" = .ok (.str "EnterRecipesMode")) :
    update (n + 1) c s action = enterRecipesMode (update n c) c s := by
  obtain ⟨src, hs⟩ := prop_ok_of_ok ht "source"
  obtain ⟨v, hv⟩ := prop_ok_of_ok ht "value"
  simp [update, ht, hs, hv]

/-- Root `update` on any action of type `'ExitRecipesMode'`. -/
theorem update_of_type_exit (n : Nat) (c : Children) (s : Model) (action : Value)
    (ht : prop action "type" = .ok (.str "ExitRecipesMode")) :
    update (n + 1) c s action = exitRecipesMode (update n c) c s := by
  obtain ⟨src, hs⟩ := prop_ok_of_ok ht "source"
  obtain ⟨v, hv⟩ := prop_ok_of_ok ht "value"
  simp [update, ht, hs, hv]

theorem Namespace.tagger_wrap (N : Namespace) (a : Value)
    (h : ∀ e, N.escape = some e → typeIsNot a e = true) :
    N.tagger a = .ok (tagged N.name a) := by
  cases N
  · rfl
  · rfl
  · exact RecipesAction_wrap (h "Activated" rfl)
  · rfl
  · exact AppNavAction_wrap (h "RequestRecipes" rfl)
  · exact OverlayAction_wrap (h "Click" rfl)

theorem Namespace.name_ne_root (N : Namespace) :
    N.name ≠ "RecipeActivated" ∧ N.name ≠ "EnterRecipesMode" ∧ N.name ≠ "ExitRecipesMode" := by
  cases N <;> decide

/-- Root `update` on an action of a type it does not dispatch on. -/
theorem update_unknown (n : Nat) (c : Children) (s : Model) (action : Value)
    (t : String) (ht : prop action "type" = .ok (.str t)) (h : t ∉ handledTypes) :
    update (n + 1) c s action = .ok (s, Effects.none) := by
  obtain ⟨src, hs⟩ := prop_ok_of_ok ht "source"
  obtain ⟨v, hv⟩ := prop_ok_of_ok ht "value"
  simp only [handledTypes, List.mem_cons, List.mem_singleton, List.not_mem_nil, or_false,
    not_or] at h
  obtain ⟨h1, h2, h3, h4, h5, h6, h7, h8, h9⟩ := h
  simp [update, ht, hs, hv, h1, h2, h3, h4, h5, h6, h7, h8, h9, Unknown.update]

/-- Root `update` on any action whose type is a namespace is the cursor of that
namespace applied to the action's `source`. -/
theorem update_routed (n : Nat) (c : Children) (s : Model) (N : Namespace)
    (action src : Value) (ht : prop action "type" = .ok (.str N.name))
    (hs : prop action "source" = .ok src) :
    update (n + 1) c s action
      = cursor N.slice N.set (N.childUpdate c) N.tagger s src := by
  obtain ⟨v, hv⟩ := prop_ok_of_ok ht "value"
  cases N <;>
    simp [update, ht, hs, hv, Namespace.name,
      updateEnvironments, updateEnvironmentalDataPoints, updateRecipes, updateRecipeHandlers,
      updateAppNav, updateOverlay] <;> rfl

theorem appNav_update_returns : ReturnsOnActions AppNav.update := by
  intro model action t ht
  obtain ⟨v, hv⟩ := prop_ok_of_ok ht "value"
  by_cases h : t = .str "ChangeRecipeTitle"
  · exact ⟨(merge model [("recipeTitle", v)], Effects.none),
      by simp [AppNav.update, ht, hv, h]⟩
  · exact ⟨(model, Effects.none), by simp [AppNav.update, ht, h, Unknown.update]⟩

theorem form_update_returns : ReturnsOnActions Form.update := by
  intro model action t ht
  by_cases h : t = .str "Open"
  · exact ⟨(merge model [("isOpen", .bool true)], Effects.none),
      by simp [Form.update, ht, h]⟩
  · by_cases h2 : t = .str "Close"
    · exact ⟨(merge model [("isOpen", .bool false)], Effects.none),
        by simp [Form.update, ht, h2]⟩
    · exact ⟨(model, Effects.none), by simp [Form.update, ht, h, h2, Unknown.update]⟩

theorem mem_handledTypes_iff (t : String) :
    t ∈ handledTypes ↔ (∃ N : Namespace, t = N.name) ∨ t = "RecipeActivated" ∨
      t = "EnterRecipesMode" ∨ t = "ExitRecipesMode" := by
  simp only [handledTypes, List.mem_cons, List.mem_singleton, List.not_mem_nil, or_false]
  constructor
  · rintro (h | h | h | h | h | h | h | h | h)
    · exact Or.inl ⟨.Environments, h⟩
    · exact Or.inl ⟨.EnvironmentalDataPoints, h⟩
    · exact Or.inl ⟨.Recipes, h⟩
    · exact Or.inl ⟨.RecipeHandlers, h⟩
    · exact Or.inl ⟨.AppNav, h⟩
    · exact Or.inl ⟨.Overlay, h⟩
    · exact Or.inr (Or.inl h)
    · exact Or.inr (Or.inr (Or.inl h))
    · exact Or.inr (Or.inr (Or.inr h))
  · rintro (⟨N, h⟩ | h | h | h)
    · cases N <;> simp [h, Namespace.name]
    · simp [h]
    · simp [h]
    · simp [h]

theorem yields_map (f : Value → Except Err Value) (fx : Effect) (a : Value) :
    Effect.yields (Effect.map f fx) a ↔ ∃ b, Effect.yields fx b ∧ f b = .ok a := by
  unfold Effect.yields Effect.map
  rw [List.mem_map]
  constructor
  · rintro ⟨o, ho, h⟩
    cases o with
    | error e => simp [Except.bind] at h
    | ok b => exact ⟨b, ho, h⟩
  · rintro ⟨b, hb, h⟩
    exact ⟨.ok b, hb, h⟩

theorem yields_batch (fxs : List Effect) (a : Value) :
    Effect.yields (Effects.batch fxs) a ↔ ∃ fx ∈ fxs, Effect.yields fx a := by
  unfold Effect.yields Effects.batch
  induction fxs with
  | nil => simp
  | cons fx rest ih => simp [List.mem_append, ih]

theorem formChildren_returns (N : Namespace) :
    ReturnsOnActions (N.childUpdate formChildren) := by
  cases N
  · exact form_update_returns
  · exact form_update_returns
  · exact form_update_returns
  · exact form_update_returns
  · exact appNav_update_returns
  · exact form_update_returns

theorem forward_wrap {ρ : Type} (address : Value → ρ) (N : Namespace) (a : Value)
    (h : ∀ e, N.escape = some e → typeIsNot a e = true) :
    forward address N.tagger a = .ok (address (tagged N.name a)) := by
  simp [forward, Namespace.tagger_wrap N a h]

/-- The only click handler of the tree built by `AppNav.view` sends
`RequestRecipes` to the address. -/
theorem appNav_view_clicks {ρ : Type} (localize : String → Value) (classed : Value → Value)
    (model : Value) (address : Value → ρ) (tree : Html ρ)
    (h : AppNav.view localize classed model address = .ok tree) :
    Html.clicks tree = [address AppNav.RequestRecipes] := by
  unfold AppNav.view at h
  cases hr : AppNav.readTitle localize model with
  | error e => simp [hr] at h
  | ok title =>
    simp only [hr] at h
    cases h
    simp [Html.clicks, Html.clicksAll]

/-- The state returned by root `update` on a routed action differs from the
state it started from in the slice of that namespace only. -/
theorem update_tagged_frame (n : Nat) (c : Children) (s : Model) (N N2 : Namespace)
    (a : Value) (h : N2 ≠ N) (s2 : Model) (fx : Effect)
    (hs : update (n + 1) c s (tagged N.name a) = .ok (s2, fx)) :
    N2.slice s2 = N2.slice s := by
  rw [update_tagged] at hs
  cases hu : N.childUpdate c (N.slice s) a with
  | error e => rw [cursor_error _ _ _ _ _ _ _ hu] at hs; cases hs
  | ok r =>
    obtain ⟨m, fx0⟩ := r
    rw [cursor_ok _ _ _ _ _ _ _ _ hu] at hs
    cases hs
    exact Namespace.slice_set_ne N N2 (fun e => h e.symm) s m

theorem merge_obj_single (fields : List (String × Value)) (name : String) (v : Value) :
    merge (.obj fields) [(name, v)] = .obj (setField name v fields) := by
  simp [merge]

theorem prop_merge_ne (fields : List (String × Value)) (name other : String)
    (h : other ≠ name) (v : Value) :
    prop (merge (.obj fields) [(name, v)]) other = prop (.obj fields) other := by
  simp [merge_obj_single, prop, getField_setField_ne name other h]

theorem setField_setField (name : String) (v w : Value) (fields : List (String × Value)) :
    setField name v (setField name w fields) = setField name v fields := by
  induction fields with
  | nil => simp [setField]
  | cons kv rest ih =>
    obtain ⟨k, x⟩ := kv
    by_cases h : k = name
    · simp [setField, h]
    · simp [setField, h, ih]

/-- Assigning to a property the value it already has changes nothing. -/
theorem setField_of_getField (name : String) (v : Value) (fields : List (String × Value))
    (h : getField name fields = v) (hv : v ≠ .undefined) :
    setField name v fields = fields := by
  induction fields with
  | nil => simp [getField] at h; exact absurd h.symm hv
  | cons kv rest ih =>
    obtain ⟨k, x⟩ := kv
    by_cases hk : k = name
    · simp [getField, hk] at h
      simp [setField, hk, h]
    · simp [getField, hk] at h
      simp [setField, hk, ih h]

theorem form_update_open (m : Value) :
    Form.update m Form.Open = .ok (merge m [("isOpen", .bool true)], Effects.none) := by
  simp [Form.update, Form.Open, prop, getField]

theorem form_update_close (m : Value) :
    Form.update m Form.Close = .ok (merge m [("isOpen", .bool false)], Effects.none) := by
  simp [Form.update, Form.Close, prop, getField]

/-- On a closed form state, `Open` followed by `Close` gives the state back. -/
theorem form_round_trip (fields : List (String × Value))
    (h : getField "isOpen" fields = .bool false) :
    Form.update (.obj fields) Form.Open
        = .ok (.obj (setField "isOpen" (.bool true) fields), Effects.none) ∧
    Form.update (.obj (setField "isOpen" (.bool true) fields)) Form.Close
        = .ok (.obj fields, Effects.none) := by
  constructor
  · rw [form_update_open, merge_obj_single]
  · rw [form_update_close, merge_obj_single, setField_setField,
      setField_of_getField "isOpen" (.bool false) fields h (by decide)]

theorem appNav_update_change (m v : Value) :
    AppNav.update m (AppNav.ChangeRecipeTitle v)
      = .ok (merge m [("recipeTitle", v)], Effects.none) := by
  simp [AppNav.update, AppNav.ChangeRecipeTitle, prop, getField]

theorem appNav_update_other (m action t : Value) (ht : prop action "type" = .ok t)
    (hne : t ≠ .str "ChangeRecipeTitle") :
    AppNav.update m action = Unknown.update m action := by
  simp [AppNav.update, ht, hne]

theorem readTitle_merge (localize : String → Value) (m v : Value) :
    AppNav.readTitle localize (merge m [("recipeTitle", v)])
      = .ok (if isString v = true then v else localize "None") := by
  simp only [AppNav.readTitle, prop_merge_self]
  by_cases h : isString v = true <;> simp [h]

mutual
theorem Html.clicks_map {α β : Type} (f : α → β) :
    ∀ tree : Html α, Html.clicks (Html.map f tree) = (Html.clicks tree).map f
  | .text _ => by simp [Html.map, Html.clicks]
  | .node _ _ onClick children => by
    cases onClick <;> simp [Html.map, Html.clicks, Html.clicksAll_map f children]
theorem Html.clicksAll_map {α β : Type} (f : α → β) :
    ∀ trees : List (Html α),
      Html.clicksAll (Html.mapAll f trees) = (Html.clicksAll trees).map f
  | [] => by simp [Html.mapAll, Html.clicksAll]
  | tree :: rest => by
    simp [Html.mapAll, Html.clicksAll, Html.clicks_map f tree, Html.clicksAll_map f rest]
end

/-- When root `view` returns, its tree is the `app-main` node over the four
child trees, each child view applied to its own slice and to the address
narrowed through its own tagger. -/
theorem app_view_ok {ρ : Type} (localize : String → Value) (classed : Value → Value)
    (views : ChildViews ρ) (model : Model) (address : Value → ρ)
    (tree : Html (Except Err ρ))
    (h : App.view localize classed views model address = .ok tree) :
    ∃ nav points overlay recipes,
      AppNav.view localize classed model.appNav (forward address AppNavAction) = .ok nav ∧
      views.EnvironmentalDataPoints model.environmentalDataPoint
        (forward address EnvironmentalDataPointsAction) = .ok points ∧
      views.Overlay model.overlay (forward address OverlayAction) = .ok overlay ∧
      views.Recipes model.recipes (forward address RecipesAction) = .ok recipes ∧
      tree = .node "div" (.str "app-main") none [nav, points, overlay, recipes] := by
  unfold App.view at h
  cases h1 : AppNav.view localize classed model.appNav (forward address AppNavAction) with
  | error e => simp [h1] at h
  | ok nav =>
    cases h2 : views.EnvironmentalDataPoints model.environmentalDataPoint
        (forward address EnvironmentalDataPointsAction) with
    | error e => simp [h1, h2] at h
    | ok points =>
      cases h3 : views.Overlay model.overlay (forward address OverlayAction) with
      | error e => simp [h1, h2, h3] at h
      | ok overlay =>
        cases h4 : views.Recipes model.recipes (forward address RecipesAction) with
        | error e => simp [h1, h2, h3, h4] at h
        | ok recipes =>
          simp only [h1, h2, h3, h4] at h
          cases h
          exact ⟨nav, points, overlay, recipes, rfl, rfl, rfl, rfl, rfl⟩

theorem viewOfSends_ok {ρ : Type} (sends : Value → Except Err (Html Value)) (model : Value)
    (address : Value → Except Err ρ) (tree : Html (Except Err ρ))
    (h : viewOfSends sends model address = .ok tree) :
    ∃ sent, sends model = .ok sent ∧ tree = Html.map address sent := by
  unfold viewOfSends at h
  cases hs : sends model with
  | error e => simp [hs] at h
  | ok sent =>
    simp only [hs] at h
    cases h
    exact ⟨sent, rfl, rfl⟩

/-- What the clicks of the tree of root `view` send to the root: the nav click
sends `AppNavAction(RequestRecipes)`, and every action a child view sends
arrives through the tagger of that child. -/
theorem app_view_clicks {ρ : Type} (localize : String → Value) (classed : Value → Value)
    (sends : ChildSends) (model : Model) (address : Value → ρ)
    (tree : Html (Except Err ρ))
    (h : App.view localize classed sends.views model address = .ok tree) :
    ∃ points overlay recipes,
      sends.EnvironmentalDataPoints model.environmentalDataPoint = .ok points ∧
      sends.Overlay model.overlay = .ok overlay ∧
      sends.Recipes model.recipes = .ok recipes ∧
      Html.clicks tree
        = forward address AppNavAction AppNav.RequestRecipes
          :: ((Html.clicks points).map (forward address EnvironmentalDataPointsAction)
            ++ ((Html.clicks overlay).map (forward address OverlayAction)
            ++ (Html.clicks recipes).map (forward address RecipesAction))) := by
  obtain ⟨nav, p, o, r, h1, h2, h3, h4, ht⟩ :=
    app_view_ok localize classed sends.views model address tree h
  obtain ⟨sp, hp, rfl⟩ := viewOfSends_ok _ _ _ _ h2
  obtain ⟨so, ho, rfl⟩ := viewOfSends_ok _ _ _ _ h3
  obtain ⟨sr, hr, rfl⟩ := viewOfSends_ok _ _ _ _ h4
  refine ⟨sp, so, sr, hp, ho, hr, ?_⟩
  subst ht
  simp [Html.clicks, Html.clicksAll, Html.clicks_map,
    appNav_view_clicks localize classed model.appNav _ nav h1]

/-! ## Claims -/

/-- C1 (routing isolation): for two distinct namespaces `N1` and `N2`, the state
returned by root `update` on `{type: N1, source: a}` has the `N2` slice of the
state it started from; and the call returns whenever the child update of `N1`
returns on its slice and `a`. -/
theorem routing_isolation (n : Nat) (c : Children) (s : Model) (N1 N2 : Namespace)
    (a : Value) (h : N1 ≠ N2) :
    (∀ s2 fx, update (n + 1) c s (tagged N1.name a) = .ok (s2, fx) →
        N2.slice s2 = N2.slice s) ∧
    ((∃ r, N1.childUpdate c (N1.slice s) a = .ok r) →
        ∃ r, update (n + 1) c s (tagged N1.name a) = .ok r) := by
  rw [update_tagged]
  constructor
  · intro s2 fx hs
    cases hu : N1.childUpdate c (N1.slice s) a with
    | error e => rw [cursor_error _ _ _ _ _ _ _ hu] at hs; cases hs
    | ok r =>
      obtain ⟨m, fx0⟩ := r
      rw [cursor_ok _ _ _ _ _ _ _ _ hu] at hs
      cases hs
      exact Namespace.slice_set_ne N1 N2 h s m
  · rintro ⟨⟨m, fx0⟩, hu⟩
    exact ⟨_, cursor_ok _ _ _ _ _ _ _ _ hu⟩

/-- Witness of C1: an `Overlay` action on the opened state of `formChildren`
returns and leaves the recipes slice as it was. -/
theorem routing_isolation_witness :
    Namespace.Overlay ≠ Namespace.Recipes ∧
    (∀ s2 fx, update 1 formChildren openState (tagged Namespace.Overlay.name Form.Close)
        = .ok (s2, fx) → Namespace.Recipes.slice s2 = Namespace.Recipes.slice openState) ∧
    ((∃ r, Namespace.Overlay.childUpdate formChildren (Namespace.Overlay.slice openState)
        Form.Close = .ok r) →
      ∃ r, update 1 formChildren openState (tagged Namespace.Overlay.name Form.Close) = .ok r) :=
  ⟨by decide,
   routing_isolation 0 formChildren openState Namespace.Overlay Namespace.Recipes Form.Close
     (by decide)⟩

/-- C2 (batch ordering): with the `Open`/`Close` constants wrapped by their
taggers, the state returned by `update(s, EnterRecipesMode)` is the state of
`update(update(s, OpenRecipes)[0], OpenOverlay)`, the state returned by
`update(s, ExitRecipesMode)` is the state of
`update(update(s, CloseRecipes)[0], CloseOverlay)` (whatever fuel the inner
calls are given), and in general `batch(update, s, [a1, a2])` and
`update(update(s, a1)[0], a2)` agree on the state component. -/
theorem batch_ordering (n m k : Nat) (c : Children) (s : Model)
    (openRecipes openOverlay closeRecipes closeOverlay : Value)
    (hw : c.wellFormed = true)
    (h1 : OpenRecipes c = .ok openRecipes) (h2 : OpenOverlay c = .ok openOverlay)
    (h3 : CloseRecipes c = .ok closeRecipes) (h4 : CloseOverlay c = .ok closeOverlay) :
    stateOf (update (n + 2) c s EnterRecipesMode)
      = stateOf ((update (m + 1) c s openRecipes).bind
          fun r => update (k + 1) c r.1 openOverlay) ∧
    stateOf (update (n + 2) c s ExitRecipesMode)
      = stateOf ((update (m + 1) c s closeRecipes).bind
          fun r => update (k + 1) c r.1 closeOverlay) ∧
    (∀ a1 a2, stateOf (batch (update n c) s [a1, a2])
      = stateOf ((update n c s a1).bind fun r => update n c r.1 a2)) := by
  obtain ⟨e1, e3, e2, e4⟩ := wellFormed_constants hw
  rw [e1] at h1; rw [e2] at h2; rw [e3] at h3; rw [e4] at h4
  cases h1; cases h2; cases h3; cases h4
  refine ⟨?_, ?_, fun a1 a2 => batch_pair_state _ _ _ _⟩
  · rw [update_enter, enterRecipesMode, e1, e2]
    simp only []
    rw [batch_pair_state]
    have q1 := update_tagged_fuel n m c s Namespace.Recipes c.Recipes.Open
    have q2 := fun s1 => update_tagged_fuel n k c s1 Namespace.Overlay c.Overlay.Open
    simp only [Namespace.name] at q1 q2
    simp only [q1, q2]
  · rw [update_exit, exitRecipesMode, e3, e4]
    simp only []
    rw [batch_pair_state]
    have q1 := update_tagged_fuel n m c s Namespace.Recipes c.Recipes.Close
    have q2 := fun s1 => update_tagged_fuel n k c s1 Namespace.Overlay c.Overlay.Close
    simp only [Namespace.name] at q1 q2
    simp only [q1, q2]

/-- Witness of C2: the children built from the leaf of `form.js`, from their
initial state; both sides of the first equation are the state with the recipes
list and the overlay open. -/
theorem batch_ordering_witness :
    formChildren.wellFormed = true ∧
    stateOf (update 2 formChildren (init formChildren).1 EnterRecipesMode) = .ok openState ∧
    (stateOf (update 2 formChildren (init formChildren).1 EnterRecipesMode)
      = stateOf ((update 1 formChildren (init formChildren).1
            (tagged "Recipes" Form.Open)).bind
          fun r => update 1 formChildren r.1 (tagged "Overlay" Form.Open)) ∧
    stateOf (update 2 formChildren (init formChildren).1 ExitRecipesMode)
      = stateOf ((update 1 formChildren (init formChildren).1
            (tagged "Recipes" Form.Close)).bind
          fun r => update 1 formChildren r.1 (tagged "Overlay" Form.Close)) ∧
    (∀ a1 a2, stateOf (batch (update 0 formChildren) (init formChildren).1 [a1, a2])
      = stateOf ((update 0 formChildren (init formChildren).1 a1).bind
          fun r => update 0 formChildren r.1 a2))) :=
  ⟨by decide, by decide,
   batch_ordering 0 0 0 formChildren (init formChildren).1
     (tagged "Recipes" Form.Open) (tagged "Overlay" Form.Open)
     (tagged "Recipes" Form.Close) (tagged "Overlay" Form.Close)
     (by decide) (by decide) (by decide) (by decide) (by decide)⟩

/-- C3 (enter combined mode): when `Recipes.update` on `Recipes.Open` and
`Overlay.update` on `Overlay.Open` return open slices, `update(s,
EnterRecipesMode)` returns a state whose recipes slice and overlay slice are
open and whose environments, environmentalDataPoint, recipeHandlers and appNav
slices are those of `s`. -/
theorem enter_recipes_mode_opens (n : Nat) (c : Children) (s : Model)
    (mr mo : Value) (fxr fxo : Effect) (hw : c.wellFormed = true)
    (hr : c.Recipes.update s.recipes c.Recipes.Open = .ok (mr, fxr))
    (ho : c.Overlay.update s.overlay c.Overlay.Open = .ok (mo, fxo))
    (hro : isOpen mr = true) (hoo : isOpen mo = true) :
    ∃ s2 fx, update (n + 2) c s EnterRecipesMode = .ok (s2, fx) ∧
      isOpen s2.recipes = true ∧ isOpen s2.overlay = true ∧
      s2.environments = s.environments ∧
      s2.environmentalDataPoint = s.environmentalDataPoint ∧
      s2.recipeHandlers = s.recipeHandlers ∧ s2.appNav = s.appNav :=
  ⟨_, _, update_enter_ok n c s hw mr mo fxr fxo hr ho, hro, hoo, rfl, rfl, rfl, rfl⟩

/-- Witness of C3: the initial root state of the children built from the leaf of
`form.js`, where the recipes list and the overlay are both closed. -/
theorem enter_recipes_mode_opens_witness :
    isOpen (init formChildren).1.recipes = false ∧
    isOpen (init formChildren).1.overlay = false ∧
    ∃ s2 fx, update 2 formChildren (init formChildren).1 EnterRecipesMode = .ok (s2, fx) ∧
      isOpen s2.recipes = true ∧ isOpen s2.overlay = true ∧
      s2.environments = (init formChildren).1.environments ∧
      s2.environmentalDataPoint = (init formChildren).1.environmentalDataPoint ∧
      s2.recipeHandlers = (init formChildren).1.recipeHandlers ∧
      s2.appNav = (init formChildren).1.appNav :=
  ⟨by decide, by decide,
   enter_recipes_mode_opens 0 formChildren (init formChildren).1
     (.obj [("isOpen", .bool true)]) (.obj [("isOpen", .bool true)]) [] []
     (by decide) (by decide) (by decide) (by decide) (by decide)⟩

/-- C4 (recipe activated), the behaviour of the code: `update(s, {type:
'RecipeActivated', value: {id: 'r1', title: 'Soup'}})` raises a `TypeError` in
every state, because `ChangeAppNavRecipe` composes `AppNavAction` with
`AppNav.ChangeRecipe`, which `nav.js` does not export; and the constructor that
`nav.js` does export, `ChangeRecipeTitle`, applied to the recipe object stores
the object, so that `readTitle` then shows `localize('None')`, not `'Soup'`. -/
theorem recipe_activated_throws (n : Nat) (c : Children) (s : Model) :
    update (n + 1) c s (RecipeActivated soup) = .error .typeError ∧
    (∀ (localize : String → Value) (m : Value),
      (AppNav.update m (AppNav.ChangeRecipeTitle soup)).bind
          (fun r => AppNav.readTitle localize r.1) = .ok (localize "None")) := by
  constructor
  · rw [update_activated]
    rfl
  · intro localize m
    have h : AppNav.update m (AppNav.ChangeRecipeTitle soup)
        = .ok (merge m [("recipeTitle", soup)], Effects.none) := by
      simp [AppNav.update, AppNav.ChangeRecipeTitle, prop, getField]
    rw [h]
    simp [Except.bind, AppNav.readTitle, prop_merge_self, soup, isString]

/-- C5, the claim fails: on the opened state of `formChildren` the action
`{type: 'Overlay', source: {type: 'Click'}}` is forwarded to `Overlay.update`
through the overlay cursor and returns the state unchanged (recipes list and
overlay still open), while `ExitRecipesMode` returns the state with both
closed. -/
theorem overlay_click_counterexample :
    update 2 formChildren openState (tagged "Overlay" click)
      = cursor Namespace.Overlay.slice Namespace.Overlay.set formChildren.Overlay.update
          OverlayAction openState click ∧
    stateOf (update 2 formChildren openState (tagged "Overlay" click)) = .ok openState ∧
    stateOf (update 2 formChildren openState ExitRecipesMode) = .ok (init formChildren).1 ∧
    openState ≠ (init formChildren).1 := by
  decide

/-- C5 as amended: the tagger `OverlayAction` translates the child action
`{type: 'Click'}` into `ExitRecipesMode`, which root `update` handles by
`exitRecipesMode`; an already wrapped `{type: 'Overlay', source: {type:
'Click'}}` is routed like every `Overlay` action: `{type: 'Click'}` is forwarded
to `Overlay.update`, only the overlay slice is replaced. -/
theorem overlay_click_routing (n : Nat) (c : Children) (s : Model) :
    OverlayAction click = .ok ExitRecipesMode ∧
    update (n + 1) c s ExitRecipesMode = exitRecipesMode (update n c) c s ∧
    update (n + 1) c s (tagged "Overlay" click)
      = (match c.Overlay.update s.overlay click with
         | .error e => .error e
         | .ok (m, fx) => .ok ({ s with overlay := m }, Effect.map OverlayAction fx)) ∧
    (∀ s2 fx, update (n + 1) c s (tagged "Overlay" click) = .ok (s2, fx) →
      s2.recipes = s.recipes ∧ s2.environments = s.environments ∧
      s2.environmentalDataPoint = s.environmentalDataPoint ∧
      s2.recipeHandlers = s.recipeHandlers ∧ s2.appNav = s.appNav) := by
  have q := update_tagged n c s Namespace.Overlay click
  simp only [Namespace.name] at q
  refine ⟨rfl, update_exit n c s, ?_, ?_⟩
  · rw [q]; rfl
  · intro s2 fx h
    rw [q] at h
    cases hu : c.Overlay.update s.overlay click with
    | error e =>
      rw [cursor_error Namespace.Overlay.slice _ (Namespace.Overlay.childUpdate c) _ s click e hu]
        at h
      cases h
    | ok r =>
      obtain ⟨m, fx0⟩ := r
      rw [cursor_ok Namespace.Overlay.slice _ (Namespace.Overlay.childUpdate c) _ s click m fx0
        hu] at h
      cases h
      exact ⟨rfl, rfl, rfl, rfl, rfl⟩

/-- C6, the claim fails: `RecipesAction` applied to the child action `{type:
'Activated'}` is `{type: 'RecipeActivated', value: undefined}`; it has no
`source` and its type is not `'Recipes'`. -/
theorem tagging_round_trip_counterexample :
    RecipesAction (.obj [("type", .str "Activated")]) = .ok (RecipeActivated .undefined) ∧
    prop (RecipeActivated .undefined) "source" = .ok .undefined ∧
    prop (RecipeActivated .undefined) "type" = .ok (.str "RecipeActivated") := by
  decide

/-- C6 as amended: for each of the six taggers and every child action `a` whose
type is not the escape type of that tagger (`'Activated'` for `RecipesAction`,
`'Click'` for `OverlayAction`, `'RequestRecipes'` for `AppNavAction`; the other
three have none), the tagged action has `source` equal to `a` and `type` equal
to the namespace. -/
theorem tagging_round_trip (N : Namespace) (a : Value)
    (h : ∀ e, N.escape = some e → typeIsNot a e = true) :
    ∃ w, N.tagger a = .ok w ∧ prop w "source" = .ok a ∧
      prop w "type" = .ok (.str N.name) :=
  ⟨tagged N.name a, Namespace.tagger_wrap N a h, prop_tagged_source _ _,
    prop_tagged_type _ _⟩

/-- Witness of C6 as amended: `RecipesAction` on the child action `{type:
'Open'}`. -/
theorem tagging_round_trip_witness :
    (∀ e, Namespace.Recipes.escape = some e → typeIsNot Form.Open e = true) ∧
    ∃ w, Namespace.Recipes.tagger Form.Open = .ok w ∧ prop w "source" = .ok Form.Open ∧
      prop w "type" = .ok (.str Namespace.Recipes.name) :=
  ⟨fun e he => by cases he; decide,
   tagging_round_trip Namespace.Recipes Form.Open (fun e he => by cases he; decide)⟩

/-- C7 (tagger escape contract): for a child action `a` with type `t` and value
`v`, `RecipesAction(a)` is `{type: 'RecipeActivated', value: v}` when `t` is
`'Activated'` and `{type: 'Recipes', source: a}` otherwise; `OverlayAction(a)` is
`ExitRecipesMode` when `t` is `'Click'` and `{type: 'Overlay', source: a}`
otherwise; `AppNavAction(a)` is `EnterRecipesMode` when `t` is
`'RequestRecipes'` and `{type: 'AppNav', source: a}` otherwise; and the types of
the three escape results differ from all six namespaces. -/
theorem tagger_escape_contract (a t v : Value) (ht : prop a "type" = .ok t)
    (hv : prop a "value" = .ok v) :
    RecipesAction a
      = .ok (if t = .str "Activated" then
          .obj [("type", .str "RecipeActivated"), ("value", v)]
        else .obj [("type", .str "Recipes"), ("source", a)]) ∧
    OverlayAction a
      = .ok (if t = .str "Click" then ExitRecipesMode
        else .obj [("type", .str "Overlay"), ("source", a)]) ∧
    AppNavAction a
      = .ok (if t = .str "RequestRecipes" then EnterRecipesMode
        else .obj [("type", .str "AppNav"), ("source", a)]) ∧
    (∀ N : Namespace,
      prop (RecipeActivated v) "type" = .ok (.str "RecipeActivated") ∧
      prop ExitRecipesMode "type" = .ok (.str "ExitRecipesMode") ∧
      prop EnterRecipesMode "type" = .ok (.str "EnterRecipesMode") ∧
      "RecipeActivated" ≠ N.name ∧ "ExitRecipesMode" ≠ N.name ∧
      "EnterRecipesMode" ≠ N.name) := by
  refine ⟨?_, ?_, ?_, ?_⟩
  · by_cases h : t = .str "Activated" <;> simp [RecipesAction, ht, hv, h, RecipeActivated, tagged]
  · by_cases h : t = .str "Click" <;> simp [OverlayAction, ht, h, tagged]
  · by_cases h : t = .str "RequestRecipes" <;> simp [AppNavAction, ht, h, tagged]
  · intro N
    obtain ⟨h1, h2, h3⟩ := Namespace.name_ne_root N
    exact ⟨rfl, rfl, rfl, fun e => h1 e.symm, fun e => h3 e.symm, fun e => h2 e.symm⟩

/-- Witness of C7: the child action `{type: 'Activated', value: soup}`. -/
theorem tagger_escape_contract_witness :
    prop (.obj [("type", .str "Activated"), ("value", soup)]) "type"
      = .ok (.str "Activated") ∧
    RecipesAction (.obj [("type", .str "Activated"), ("value", soup)])
      = .ok (RecipeActivated soup) ∧
    OverlayAction (.obj [("type", .str "Activated"), ("value", soup)])
      = .ok (tagged "Overlay" (.obj [("type", .str "Activated"), ("value", soup)])) :=
  have h := tagger_escape_contract (.obj [("type", .str "Activated"), ("value", soup)])
    (.str "Activated") soup (by decide) (by decide)
  ⟨by decide, h.1, h.2.1⟩


/-- C8 (unknown action): for an action whose type is a string that is none of
the six namespaces nor `'RecipeActivated'`, `'EnterRecipesMode'`,
`'ExitRecipesMode'`, root `update` returns the state unchanged with the empty
effect. -/
theorem unknown_action_unchanged (n : Nat) (c : Children) (s : Model) (action : Value)
    (t : String) (ht : prop action "type" = .ok (.str t)) (h : t ∉ handledTypes) :
    update (n + 1) c s action = .ok (s, Effects.none) :=
  update_unknown n c s action t ht h

/-- Witness of C8: the action `{type: ''}` on the opened state. -/
theorem unknown_action_unchanged_witness :
    "" ∉ handledTypes ∧
    update 1 formChildren openState (.obj [("type", .str "")]) = .ok (openState, Effects.none) :=
  ⟨by decide,
   unknown_action_unchanged 0 formChildren openState (.obj [("type", .str "")]) ""
     (by decide) (by decide)⟩

/-- C9, the claim fails: the routed action `{type: 'AppNav'}`, which has no
`source`, makes root `update` raise a `TypeError` (`AppNav.update` reads the
`type` of `undefined`). -/
theorem update_totality_counterexample :
    prop (.obj [("type", .str "AppNav")]) "type" = .ok (.str "AppNav") ∧
    update 2 formChildren (init formChildren).1 (.obj [("type", .str "AppNav")])
      = .error .typeError := by
  decide

/-- C9 as amended: when the absent child updates return on every action with a
readable type (§6) and the `Open`/`Close` constants are wrapped by their
taggers, root `update` returns a (state, effect) pair on every action that has a
string type other than `'RecipeActivated'` and whose `source`, when the type is
one of the six namespaces, is an action with a readable type. -/
theorem update_totality (n : Nat) (c : Children) (s : Model) (action : Value) (t : String)
    (hw : c.wellFormed = true)
    (hc : ∀ N : Namespace, N ≠ .AppNav → ReturnsOnActions (N.childUpdate c))
    (ht : prop action "type" = .ok (.str t)) (hne : t ≠ "RecipeActivated")
    (hsrc : (∃ N : Namespace, t = N.name) →
      ∃ src ty, prop action "source" = .ok src ∧ prop src "type" = .ok ty) :
    ∃ r, update (n + 2) c s action = .ok r := by
  have hall : ∀ N : Namespace, ReturnsOnActions (N.childUpdate c) := by
    intro N
    by_cases hN : N = .AppNav
    · subst hN; exact appNav_update_returns
    · exact hc N hN
  by_cases hm : t ∈ handledTypes
  · rcases (mem_handledTypes_iff t).1 hm with ⟨N, hN⟩ | h | h | h
    · obtain ⟨src, ty, hs, hty⟩ := hsrc ⟨N, hN⟩
      subst hN
      rw [update_routed (n + 1) c s N action src ht hs]
      obtain ⟨⟨m, fx⟩, hu⟩ := hall N (N.slice s) src ty hty
      exact ⟨_, cursor_ok _ _ _ _ _ _ _ _ hu⟩
    · exact absurd h hne
    · subst h
      have hw2 := hw
      simp only [Children.wellFormed, Bool.and_eq_true] at hw2
      obtain ⟨⟨⟨w1, _⟩, w3⟩, _⟩ := hw2
      obtain ⟨t1, ht1, _⟩ := typeIsNot_spec w1
      obtain ⟨t3, ht3, _⟩ := typeIsNot_spec w3
      obtain ⟨⟨mr, fxr⟩, hr⟩ := hall .Recipes s.recipes c.Recipes.Open t1 ht1
      obtain ⟨⟨mo, fxo⟩, ho⟩ := hall .Overlay s.overlay c.Overlay.Open t3 ht3
      rw [update_of_type_enter (n + 1) c s action ht]
      exact ⟨_, enterRecipesMode_ok n c s hw mr mo fxr fxo hr ho⟩
    · subst h
      have hw2 := hw
      simp only [Children.wellFormed, Bool.and_eq_true] at hw2
      obtain ⟨⟨⟨_, w2⟩, _⟩, w4⟩ := hw2
      obtain ⟨t2, ht2, _⟩ := typeIsNot_spec w2
      obtain ⟨t4, ht4, _⟩ := typeIsNot_spec w4
      obtain ⟨⟨mr, fxr⟩, hr⟩ := hall .Recipes s.recipes c.Recipes.Close t2 ht2
      obtain ⟨⟨mo, fxo⟩, ho⟩ := hall .Overlay s.overlay c.Overlay.Close t4 ht4
      rw [update_of_type_exit (n + 1) c s action ht]
      exact ⟨_, exitRecipesMode_ok n c s hw mr mo fxr fxo hr ho⟩
  · exact ⟨_, update_unknown (n + 1) c s action t ht hm⟩

/-- Witness of C9 as amended: with the children built from the leaf of
`form.js`, the routed action `{type: 'AppNav', source: ChangeRecipeTitle('Soup')}`
on the initial state. -/
theorem update_totality_witness :
    formChildren.wellFormed = true ∧
    prop (tagged "AppNav" (AppNav.ChangeRecipeTitle (.str "Soup"))) "type"
      = .ok (.str "AppNav") ∧
    "AppNav" ≠ "RecipeActivated" ∧
    ∃ r, update 2 formChildren (init formChildren).1
      (tagged "AppNav" (AppNav.ChangeRecipeTitle (.str "Soup"))) = .ok r :=
  ⟨by decide, by decide, by decide,
   update_totality 0 formChildren (init formChildren).1
     (tagged "AppNav" (AppNav.ChangeRecipeTitle (.str "Soup"))) "AppNav"
     (by decide) (fun N _ => formChildren_returns N) (by decide) (by decide)
     (fun _ => ⟨AppNav.ChangeRecipeTitle (.str "Soup"), .str "ChangeRecipeTitle",
       by decide, by decide⟩)⟩

/-- C10, the claim fails: when the initial effect of the recipes child yields
the child action `{type: 'Activated'}`, the merged effect of root `init` yields
`{type: 'RecipeActivated', value: undefined}`, whose type is none of the six
namespaces. -/
theorem init_effect_counterexample :
    Effect.yields activatingChildren.Recipes.init.2 (.obj [("type", .str "Activated")]) ∧
    Effect.yields (init activatingChildren).2 (RecipeActivated .undefined) ∧
    prop (RecipeActivated .undefined) "type" = .ok (.str "RecipeActivated") ∧
    (∀ N : Namespace, "RecipeActivated" ≠ N.name) := by
  refine ⟨?_, ?_, by decide, fun N => by cases N <;> decide⟩
  · unfold Effect.yields; decide
  · unfold Effect.yields; decide

/-- C10 as amended: every action yielded by the merged effect returned by root
`init` has a type equal to one of the six namespaces, or is `ExitRecipesMode`,
arising from an action of type `'Click'` yielded by the overlay's initial
effect, or is `{type: 'RecipeActivated', value: v}`, arising from an action of
type `'Activated'` and value `v` yielded by the recipes' initial effect. -/
theorem init_effect_types (c : Children) (a : Value)
    (h : Effect.yields (init c).2 a) :
    (∃ N : Namespace, prop a "type" = .ok (.str N.name)) ∨
    (a = ExitRecipesMode ∧
      ∃ b, Effect.yields c.Overlay.init.2 b ∧ prop b "type" = .ok (.str "Click")) ∨
    (∃ b v, Effect.yields c.Recipes.init.2 b ∧ prop b "type" = .ok (.str "Activated") ∧
      prop b "value" = .ok v ∧ a = RecipeActivated v) := by
  simp only [init, yields_batch, List.mem_cons, List.mem_singleton, List.not_mem_nil,
    or_false] at h
  obtain ⟨fx, hfx, hy⟩ := h
  rcases hfx with rfl | rfl | rfl | rfl | rfl | rfl
  · obtain ⟨b, _, hb⟩ := (yields_map _ _ _).1 hy
    cases hb
    exact Or.inl ⟨.Environments, prop_tagged_type _ _⟩
  · obtain ⟨b, _, hb⟩ := (yields_map _ _ _).1 hy
    cases hb
    exact Or.inl ⟨.EnvironmentalDataPoints, prop_tagged_type _ _⟩
  · obtain ⟨b, hyb, hb⟩ := (yields_map _ _ _).1 hy
    unfold RecipesAction at hb
    cases ht : prop b "type" with
    | error e => simp [ht] at hb
    | ok t =>
      by_cases hA : t = .str "Activated"
      · cases hv : prop b "value" with
        | error e => simp [ht, hA, hv] at hb
        | ok v =>
          simp [ht, hA, hv] at hb
          exact Or.inr (Or.inr ⟨b, v, hyb, by rw [ht, hA], hv, hb.symm⟩)
      · simp [ht, hA] at hb
        subst hb
        exact Or.inl ⟨.Recipes, prop_tagged_type _ _⟩
  · obtain ⟨b, _, hb⟩ := (yields_map _ _ _).1 hy
    cases hb
    exact Or.inl ⟨.RecipeHandlers, prop_tagged_type _ _⟩
  · obtain ⟨b, hyb, _⟩ := (yields_map _ _ _).1 hy
    simp [AppNav.init, Effects.none, Effect.yields] at hyb
  · obtain ⟨b, hyb, hb⟩ := (yields_map _ _ _).1 hy
    unfold OverlayAction at hb
    cases ht : prop b "type" with
    | error e => simp [ht] at hb
    | ok t =>
      by_cases hC : t = .str "Click"
      · simp [ht, hC] at hb
        exact Or.inr (Or.inl ⟨hb.symm, b, hyb, by rw [ht, hC]⟩)
      · simp [ht, hC] at hb
        subst hb
        exact Or.inl ⟨.Overlay, prop_tagged_type _ _⟩

/-- Witness of C10 as amended: the action `{type: 'RecipeActivated', value:
undefined}` yielded by the merged initial effect of `activatingChildren`. -/
theorem init_effect_types_witness :
    Effect.yields (init activatingChildren).2 (RecipeActivated .undefined) ∧
    ((∃ N : Namespace, prop (RecipeActivated .undefined) "type" = .ok (.str N.name)) ∨
    (RecipeActivated .undefined = ExitRecipesMode ∧
      ∃ b, Effect.yields activatingChildren.Overlay.init.2 b ∧
        prop b "type" = .ok (.str "Click")) ∨
    (∃ b v, Effect.yields activatingChildren.Recipes.init.2 b ∧
      prop b "type" = .ok (.str "Activated") ∧
      prop b "value" = .ok v ∧ RecipeActivated .undefined = RecipeActivated v)) :=
  ⟨by unfold Effect.yields; decide,
   init_effect_types activatingChildren (RecipeActivated .undefined)
     (by unfold Effect.yields; decide)⟩

/-- C11, the claim fails: the one action that the view of `nav.js` sends through
its narrowed address `forward(address, AppNavAction)` is `RequestRecipes`; it
reaches the root as `EnterRecipesMode`, whose type is not `'AppNav'`, and root
`update` of it changes the recipes and overlay slices and not the appNav
slice. -/
theorem view_dispatch_counterexample :
    (App.view (fun k => .str k) (fun _ => .str "") emptyViews (init formChildren).1
        (fun a => a)).map Html.clicks = .ok [.ok EnterRecipesMode] ∧
    forward (fun a => a) AppNavAction AppNav.RequestRecipes = .ok EnterRecipesMode ∧
    prop EnterRecipesMode "type" = .ok (.str "EnterRecipesMode") ∧
    stateOf (update 2 formChildren (init formChildren).1 EnterRecipesMode) = .ok openState ∧
    openState.recipes ≠ (init formChildren).1.recipes ∧
    openState.overlay ≠ (init formChildren).1.overlay ∧
    openState.appNav = (init formChildren).1.appNav := by
  decide

/-- C11 as amended: root `view` gives each child it renders (AppNav,
EnvironmentalDataPoints, Overlay, Recipes) its own slice and the address
narrowed through its own tagger, so every action a child view sends reaches the
root through that tagger.  A child action `a` sent through `forward(address,
Tagger)` whose type is not the escape type of the tagger reaches the root as
`{type: namespace, source: a}`, and root `update` of it changes no slice other
than that child's own; an action of the escape type reaches the root as a root
action instead: `RequestRecipes` (the only action the view of `nav.js` sends) as
`EnterRecipesMode`, `{type: 'Click'}` as `ExitRecipesMode`, `{type: 'Activated',
value: v}` as `{type: 'RecipeActivated', value: v}`. -/
theorem view_dispatch_narrowing {ρ : Type} (n : Nat) (c : Children) (s : Model)
    (N : Namespace) (a : Value) (address : Value → ρ)
    (h : ∀ e, N.escape = some e → typeIsNot a e = true) :
    forward address N.tagger a = .ok (address (tagged N.name a)) ∧
    prop (tagged N.name a) "type" = .ok (.str N.name) ∧
    (∀ N2 s2 fx, N2 ≠ N → update (n + 1) c s (tagged N.name a) = .ok (s2, fx) →
      N2.slice s2 = N2.slice s) ∧
    forward address AppNavAction AppNav.RequestRecipes = .ok (address EnterRecipesMode) ∧
    forward address OverlayAction click = .ok (address ExitRecipesMode) ∧
    (∀ v, forward address RecipesAction (.obj [("type", .str "Activated"), ("value", v)])
      = .ok (address (RecipeActivated v))) ∧
    (∀ localize classed model tree,
      AppNav.view localize classed model (forward address AppNavAction) = .ok tree →
      Html.clicks tree = [.ok (address EnterRecipesMode)]) ∧
    (∀ localize classed (views : ChildViews ρ) model tree,
      App.view localize classed views model address = .ok tree →
      ∃ nav points overlay recipes,
        AppNav.view localize classed model.appNav
          (forward address Namespace.AppNav.tagger) = .ok nav ∧
        views.EnvironmentalDataPoints model.environmentalDataPoint
          (forward address Namespace.EnvironmentalDataPoints.tagger) = .ok points ∧
        views.Overlay model.overlay (forward address Namespace.Overlay.tagger)
          = .ok overlay ∧
        views.Recipes model.recipes (forward address Namespace.Recipes.tagger)
          = .ok recipes ∧
        tree = .node "div" (.str "app-main") none [nav, points, overlay, recipes]) ∧
    (∀ localize classed (sends : ChildSends) model tree,
      App.view localize classed sends.views model address = .ok tree →
      ∃ points overlay recipes,
        sends.EnvironmentalDataPoints model.environmentalDataPoint = .ok points ∧
        sends.Overlay model.overlay = .ok overlay ∧
        sends.Recipes model.recipes = .ok recipes ∧
        Html.clicks tree
          = forward address Namespace.AppNav.tagger AppNav.RequestRecipes
            :: ((Html.clicks points).map
                (forward address Namespace.EnvironmentalDataPoints.tagger)
              ++ ((Html.clicks overlay).map (forward address Namespace.Overlay.tagger)
              ++ (Html.clicks recipes).map (forward address Namespace.Recipes.tagger)))) := by
  refine ⟨forward_wrap address N a h, prop_tagged_type _ _, ?_, rfl, rfl, fun v => rfl, ?_,
    ?_, ?_⟩
  · intro N2 s2 fx hne hs
    exact update_tagged_frame n c s N N2 a hne s2 fx hs
  · intro localize classed model tree ht
    rw [appNav_view_clicks localize classed model _ tree ht]
    rfl
  · intro localize classed views model tree hv
    exact app_view_ok localize classed views model address tree hv
  · intro localize classed sends model tree hv
    exact app_view_clicks localize classed sends model address tree hv

/-- Witness of C11 as amended: the overlay child sending `{type: 'Close'}`, and
the clicks of the tree root `view` builds over `sampleSends`: the nav click
arrives as `EnterRecipesMode`, the data points' `{type: 'Open'}` and the
overlay's `{type: 'Close'}` arrive wrapped in their own namespace, the overlay's
`{type: 'Click'}` as `ExitRecipesMode` and the recipes' `{type: 'Activated',
value: soup}` as `{type: 'RecipeActivated', value: soup}`. -/
theorem view_dispatch_narrowing_witness :
    (∀ e, Namespace.Overlay.escape = some e → typeIsNot Form.Close e = true) ∧
    forward (fun a => a) Namespace.Overlay.tagger Form.Close
      = .ok (tagged Namespace.Overlay.name Form.Close) ∧
    (∀ N2 s2 fx, N2 ≠ Namespace.Overlay →
      update 1 formChildren openState (tagged Namespace.Overlay.name Form.Close)
        = .ok (s2, fx) →
      N2.slice s2 = N2.slice openState) ∧
    (App.view (fun k => .str k) (fun _ => .str "") sampleSends.views openState
        (fun a => a)).map Html.clicks
      = .ok [.ok EnterRecipesMode, .ok (tagged "EnvironmentalDataPoints" Form.Open),
          .ok (tagged "Overlay" Form.Close), .ok ExitRecipesMode,
          .ok (RecipeActivated soup)] :=
  have h := view_dispatch_narrowing 0 formChildren openState Namespace.Overlay Form.Close
    (fun a => a) (fun e he => by cases he; decide)
  ⟨fun e he => by cases he; decide, h.1, h.2.2.1, by decide⟩

/-- C12 (cursor routing): for every namespace, root `update(s, {type:
namespace, source: a})` raises what the child update raises on the slice and
`a`, and otherwise returns `s` with only that slice replaced by the state
component of the child update, and the effect component of the child update
mapped through the namespace's tagger; spelled out for `AppNav`. -/
theorem cursor_routing (n : Nat) (c : Children) (s : Model) (N : Namespace) (a : Value) :
    update (n + 1) c s (tagged N.name a)
      = (match N.childUpdate c (N.slice s) a with
         | .error e => .error e
         | .ok (m, fx) => .ok (N.set s m, Effect.map N.tagger fx)) ∧
    (∀ m, N.slice (N.set s m) = m ∧ ∀ N2, N2 ≠ N → N2.slice (N.set s m) = N2.slice s) ∧
    update (n + 1) c s (tagged "AppNav" a)
      = (match AppNav.update s.appNav a with
         | .error e => .error e
         | .ok (m, fx) => .ok ({ s with appNav := m }, Effect.map AppNavAction fx)) := by
  refine ⟨?_, fun m => ⟨Namespace.slice_set_self N s m, fun N2 h =>
    Namespace.slice_set_ne N N2 (fun e => h e.symm) s m⟩, ?_⟩
  · rw [update_tagged]; rfl
  · have q := update_tagged n c s Namespace.AppNav a
    simp only [Namespace.name] at q
    rw [q]; rfl

/-- C13 (paired open/close): when the recipes and overlay updates open their
slice on `Open` and close it on `Close`, `EnterRecipesMode` returns a state with
both open and `ExitRecipesMode` a state with both closed, whatever the flags in
`s`; `RecipeActivated` returns no state: it raises a `TypeError`. -/
theorem paired_open_close (n : Nat) (c : Children) (s : Model)
    (ro oo rc oc : Value) (fro foo frc foc : Effect) (hw : c.wellFormed = true)
    (h1 : c.Recipes.update s.recipes c.Recipes.Open = .ok (ro, fro))
    (h2 : c.Overlay.update s.overlay c.Overlay.Open = .ok (oo, foo))
    (h3 : c.Recipes.update s.recipes c.Recipes.Close = .ok (rc, frc))
    (h4 : c.Overlay.update s.overlay c.Overlay.Close = .ok (oc, foc))
    (o1 : isOpen ro = true) (o2 : isOpen oo = true)
    (o3 : isOpen rc = false) (o4 : isOpen oc = false) :
    (∃ s2 fx, update (n + 2) c s EnterRecipesMode = .ok (s2, fx) ∧
      isOpen s2.recipes = true ∧ isOpen s2.overlay = true) ∧
    (∃ s2 fx, update (n + 2) c s ExitRecipesMode = .ok (s2, fx) ∧
      isOpen s2.recipes = false ∧ isOpen s2.overlay = false) ∧
    (∀ recipe, update (n + 2) c s (RecipeActivated recipe) = .error .typeError) := by
  refine ⟨⟨_, _, update_enter_ok n c s hw ro oo fro foo h1 h2, o1, o2⟩,
    ⟨_, _, update_exit_ok n c s hw rc oc frc foc h3 h4, o3, o4⟩, ?_⟩
  intro recipe
  rw [update_activated]
  rfl

/-- Witness of C13: the children built from the leaf of `form.js`, on the state
with the recipes list and the overlay open. -/
theorem paired_open_close_witness :
    (∃ s2 fx, update 2 formChildren openState EnterRecipesMode = .ok (s2, fx) ∧
      isOpen s2.recipes = true ∧ isOpen s2.overlay = true) ∧
    (∃ s2 fx, update 2 formChildren openState ExitRecipesMode = .ok (s2, fx) ∧
      isOpen s2.recipes = false ∧ isOpen s2.overlay = false) ∧
    (∀ recipe, update 2 formChildren openState (RecipeActivated recipe)
      = .error .typeError) :=
  paired_open_close 0 formChildren openState
    (.obj [("isOpen", .bool true)]) (.obj [("isOpen", .bool true)])
    (.obj [("isOpen", .bool false)]) (.obj [("isOpen", .bool false)]) [] [] [] []
    (by decide) (by decide) (by decide) (by decide) (by decide)
    (by decide) (by decide) (by decide) (by decide)

/-- C14 (navigation bar leaf): on a nav state, `AppNav.update(m, {type:
'ChangeRecipeTitle', value: v})` returns a state whose `recipeTitle` is `v` and
whose other properties are those of `m`, with the empty effect; on every action
whose type is not `'ChangeRecipeTitle'` it returns the result of the unknown
action handler, the state `m` unchanged with the empty effect. -/
theorem nav_leaf_contract (fields : List (String × Value)) (v m action t : Value)
    (ht : prop action "type" = .ok t) (hne : t ≠ .str "ChangeRecipeTitle") :
    (∃ m2, AppNav.update (.obj fields) (AppNav.ChangeRecipeTitle v) = .ok (m2, Effects.none) ∧
      prop m2 "recipeTitle" = .ok v ∧
      ∀ k, k ≠ "recipeTitle" → prop m2 k = prop (.obj fields) k) ∧
    AppNav.update m action = Unknown.update m action ∧
    AppNav.update m action = .ok (m, Effects.none) := by
  refine ⟨⟨_, appNav_update_change _ v, prop_merge_self _ _ _, fun k hk =>
    prop_merge_ne fields "recipeTitle" k hk v⟩, appNav_update_other m action t ht hne, ?_⟩
  rw [appNav_update_other m action t ht hne]
  rfl

/-- Witness of C14: the initial nav state, the title `'Soup'`, and the action
`{type: 'Open'}` as an action of another type. -/
theorem nav_leaf_contract_witness :
    prop Form.Open "type" = .ok (.str "Open") ∧
    (∃ m2, AppNav.update (.obj [("recipeTitle", .null)])
        (AppNav.ChangeRecipeTitle (.str "Soup")) = .ok (m2, Effects.none) ∧
      prop m2 "recipeTitle" = .ok (.str "Soup") ∧
      ∀ k, k ≠ "recipeTitle" → prop m2 k = prop (.obj [("recipeTitle", .null)]) k) ∧
    AppNav.update AppNav.init.1 Form.Open = Unknown.update AppNav.init.1 Form.Open ∧
    AppNav.update AppNav.init.1 Form.Open = .ok (AppNav.init.1, Effects.none) :=
  ⟨by decide,
   nav_leaf_contract [("recipeTitle", .null)] (.str "Soup") AppNav.init.1 Form.Open
     (.str "Open") (by decide) (by decide)⟩

/-- C15, the claim fails: on the open form `{isOpen: true}` the declared actions
`Cancel` and `Create(operations)` have no transition of their own; `Form.update`
hands them to the unknown action handler and the state is returned
unchanged. -/
theorem form_variants_counterexample :
    Form.update openForm Form.Cancel = Unknown.update openForm Form.Cancel ∧
    Form.update openForm Form.Cancel = .ok (openForm, Effects.none) ∧
    Form.update openForm (Form.Create (.str "[]"))
      = Unknown.update openForm (Form.Create (.str "[]")) ∧
    Form.update openForm (Form.Create (.str "[]")) = .ok (openForm, Effects.none) := by
  decide

/-- C15 as amended: `Form.update` returns on every action whose type can be
read; it has a transition of its own for the types `'Open'` and `'Close'` only,
and every other action, the declared `Create(operations)` and `Cancel` included,
falls through to the unknown action handler. -/
theorem form_update_variants (m action t : Value) (ht : prop action "type" = .ok t) :
    Form.update m action
      = (if t = .str "Open" then .ok (merge m [("isOpen", .bool true)], Effects.none)
         else if t = .str "Close" then .ok (merge m [("isOpen", .bool false)], Effects.none)
         else Unknown.update m action) ∧
    (∀ operations,
      Form.update m (Form.Create operations) = Unknown.update m (Form.Create operations)) ∧
    Form.update m Form.Cancel = Unknown.update m Form.Cancel ∧
    ∃ r, Form.update m action = .ok r := by
  refine ⟨by simp [Form.update, ht], fun operations => ?_, ?_,
    form_update_returns m action t ht⟩
  · simp [Form.update, Form.Create, prop, getField]
  · simp [Form.update, Form.Cancel, prop, getField]

/-- Witness of C15 as amended: the action `Open` on the initial form state. -/
theorem form_update_variants_witness :
    prop Form.Open "type" = .ok (.str "Open") ∧
    Form.update Form.init.1 Form.Open = .ok (openForm, Effects.none) ∧
    Form.update Form.init.1 Form.Cancel = Unknown.update Form.init.1 Form.Cancel :=
  have h := form_update_variants Form.init.1 Form.Open (.str "Open") (by decide)
  ⟨by decide, h.1.trans (by decide), h.2.2.1⟩

/-- C16 (recipe form open/close): on a form state, `Open` returns a state with
`isOpen` true and `Close` a state with `isOpen` false, each with the empty
effect and the other properties unchanged; applying the same action again
returns the same state; and the initial state has `isOpen` false. -/
theorem form_open_close (fields : List (String × Value)) :
    (∃ m2, Form.update (.obj fields) Form.Open = .ok (m2, Effects.none) ∧
      prop m2 "isOpen" = .ok (.bool true) ∧
      (∀ k, k ≠ "isOpen" → prop m2 k = prop (.obj fields) k) ∧
      Form.update m2 Form.Open = .ok (m2, Effects.none)) ∧
    (∃ m2, Form.update (.obj fields) Form.Close = .ok (m2, Effects.none) ∧
      prop m2 "isOpen" = .ok (.bool false) ∧
      (∀ k, k ≠ "isOpen" → prop m2 k = prop (.obj fields) k) ∧
      Form.update m2 Form.Close = .ok (m2, Effects.none)) ∧
    prop Form.init.1 "isOpen" = .ok (.bool false) ∧ Form.init.2 = Effects.none := by
  refine ⟨⟨_, form_update_open _, prop_merge_self _ _ _, fun k hk =>
      prop_merge_ne fields "isOpen" k hk _, ?_⟩,
    ⟨_, form_update_close _, prop_merge_self _ _ _, fun k hk =>
      prop_merge_ne fields "isOpen" k hk _, ?_⟩, rfl, rfl⟩
  · rw [form_update_open, merge_obj_single, merge_obj_single, setField_setField]
  · rw [form_update_close, merge_obj_single, merge_obj_single, setField_setField]

/-- C17 (displayed navigation title), with a `localize` that returns strings:
`readTitle(m)` is `m.recipeTitle` when that is a string and `localize('None')`
otherwise, and it equals `m.recipeTitle` exactly when that is a string; the
initial nav state displays `localize('None')`; after `AppNav.update(m,
ChangeRecipeTitle(v))` the displayed title is `v` if and only if `v` is a
string. -/
theorem displayed_title (loc : String → String) (fields : List (String × Value))
    (m v : Value) :
    AppNav.readTitle (fun k => .str (loc k)) (.obj fields)
      = .ok (if isString (getField "recipeTitle" fields) = true
          then getField "recipeTitle" fields else .str (loc "None")) ∧
    (AppNav.readTitle (fun k => .str (loc k)) (.obj fields)
        = .ok (getField "recipeTitle" fields)
      ↔ isString (getField "recipeTitle" fields) = true) ∧
    AppNav.readTitle (fun k => .str (loc k)) AppNav.init.1 = .ok (.str (loc "None")) ∧
    (AppNav.update m (AppNav.ChangeRecipeTitle v)).bind
        (fun r => AppNav.readTitle (fun k => .str (loc k)) r.1)
      = .ok (if isString v = true then v else .str (loc "None")) ∧
    ((AppNav.update m (AppNav.ChangeRecipeTitle v)).bind
        (fun r => AppNav.readTitle (fun k => .str (loc k)) r.1) = .ok v
      ↔ isString v = true) := by
  have key : ∀ x : Value,
      ((.ok (if isString x = true then x else .str (loc "None")) : Except Err Value) = .ok x
        ↔ isString x = true) := by
    intro x
    by_cases hx : isString x = true
    · simp [hx]
    · have hxf : isString x = false := by simpa using hx
      simp only [hxf, Bool.false_eq_true, if_false, iff_false]
      intro e
      injection e with e
      rw [← e] at hxf
      simp [isString] at hxf
  have h1 : AppNav.readTitle (fun k => .str (loc k)) (.obj fields)
      = .ok (if isString (getField "recipeTitle" fields) = true
          then getField "recipeTitle" fields else .str (loc "None")) := by
    simp only [AppNav.readTitle, prop]
    by_cases h : isString (getField "recipeTitle" fields) = true <;> simp [h]
  have h3 : (AppNav.update m (AppNav.ChangeRecipeTitle v)).bind
        (fun r => AppNav.readTitle (fun k => .str (loc k)) r.1)
      = .ok (if isString v = true then v else .str (loc "None")) := by
    rw [appNav_update_change]
    simp only [Except.bind]
    exact readTitle_merge _ m v
  refine ⟨h1, ?_, rfl, h3, ?_⟩
  · rw [h1]; exact key _
  · rw [h3]; exact key _

/-- C18 (enter/exit round trip): when `Open` followed by `Close` gives the
recipes slice and the overlay slice of `s` back, `update` with
`EnterRecipesMode` followed by `update` with `ExitRecipesMode` returns `s`; and
the open/close leaf of `form.js` gives a closed state (`isOpen` false) back. -/
theorem enter_exit_round_trip (n : Nat) (c : Children) (s : Model) (mr mo : Value)
    (f1 f2 f3 f4 : Effect) (hw : c.wellFormed = true)
    (h1 : c.Recipes.update s.recipes c.Recipes.Open = .ok (mr, f1))
    (h2 : c.Overlay.update s.overlay c.Overlay.Open = .ok (mo, f2))
    (h3 : c.Recipes.update mr c.Recipes.Close = .ok (s.recipes, f3))
    (h4 : c.Overlay.update mo c.Overlay.Close = .ok (s.overlay, f4)) :
    (∃ s1 fx1 fx2, update (n + 2) c s EnterRecipesMode = .ok (s1, fx1) ∧
      update (n + 2) c s1 ExitRecipesMode = .ok (s, fx2)) ∧
    (∀ fields, getField "isOpen" fields = .bool false →
      ∃ m1, Form.update (.obj fields) Form.Open = .ok (m1, Effects.none) ∧
        Form.update m1 Form.Close = .ok (.obj fields, Effects.none)) := by
  have e1 := update_enter_ok n c s hw mr mo f1 f2 h1 h2
  have e2 := update_exit_ok n c { s with recipes := mr, overlay := mo } hw s.recipes
    s.overlay f3 f4 h3 h4
  exact ⟨⟨_, _, _, e1, e2⟩, fun fields h => ⟨_, form_round_trip fields h⟩⟩

/-- Witness of C18: the children built from the leaf of `form.js`, from their
initial state, where the recipes list and the overlay are closed. -/
theorem enter_exit_round_trip_witness :
    isOpen (init formChildren).1.recipes = false ∧
    isOpen (init formChildren).1.overlay = false ∧
    (∃ s1 fx1 fx2, update 2 formChildren (init formChildren).1 EnterRecipesMode
        = .ok (s1, fx1) ∧
      update 2 formChildren s1 ExitRecipesMode = .ok ((init formChildren).1, fx2)) :=
  ⟨by decide, by decide,
   (enter_exit_round_trip 0 formChildren (init formChildren).1 openForm openForm [] [] [] []
     (by decide) (by decide) (by decide) (by decide) (by decide)).1⟩

/-- C19 (declared but unhandled root actions): root `update` applied to
`CreateRecipe(r)`, `EnterAddRecipe`, `ExitAddRecipe`, `CancelAddRecipe` or
`RequestMode(v)` is the unknown action handler applied to it and returns the
state unchanged with the empty effect. -/
theorem declared_unhandled (n : Nat) (c : Children) (s : Model) (r v : Value) :
    (update (n + 1) c s (CreateRecipe r) = Unknown.update s (CreateRecipe r) ∧
      update (n + 1) c s (CreateRecipe r) = .ok (s, Effects.none)) ∧
    (update (n + 1) c s EnterAddRecipe = Unknown.update s EnterAddRecipe ∧
      update (n + 1) c s EnterAddRecipe = .ok (s, Effects.none)) ∧
    (update (n + 1) c s ExitAddRecipe = Unknown.update s ExitAddRecipe ∧
      update (n + 1) c s ExitAddRecipe = .ok (s, Effects.none)) ∧
    (update (n + 1) c s CancelAddRecipe = Unknown.update s CancelAddRecipe ∧
      update (n + 1) c s CancelAddRecipe = .ok (s, Effects.none)) ∧
    (update (n + 1) c s (RequestMode v) = Unknown.update s (RequestMode v) ∧
      update (n + 1) c s (RequestMode v) = .ok (s, Effects.none)) := by
  have h1 := update_unknown n c s (CreateRecipe r) "CreateRecipe"
    (by simp [CreateRecipe, prop, getField]) (by decide)
  have h2 := update_unknown n c s EnterAddRecipe "EnterAddRecipe" (by decide) (by decide)
  have h3 := update_unknown n c s ExitAddRecipe "ExitAddRecipe" (by decide) (by decide)
  have h4 := update_unknown n c s CancelAddRecipe "CancelAddRecipe" (by decide) (by decide)
  have h5 := update_unknown n c s (RequestMode v) "RequestMode"
    (by simp [RequestMode, prop, getField]) (by decide)
  exact ⟨⟨h1, h1⟩, ⟨h2, h2⟩, ⟨h3, h3⟩, ⟨h4, h4⟩, ⟨h5, h5⟩⟩

end OpenAg
